import Mathlib

/-!
Verification of the puyo-simulator core engine against its specification.

The definitions below are a shallow embedding of the TypeScript sources:
`src/domain/puyo.ts`, `src/domain/board.ts`, `src/domain/puyoPair.ts`,
`src/domain/score.ts` and `src/domain/game.ts`.  Coordinates are `Int`
(TS numbers used with `< 0` tests), grids are lists of rows of cells,
and fallible operations return `Except`.
-/

/-! ## puyo.ts -/

/-- Colors of Puyo pieces (`enum PuyoColor`); `NONE` denotes an empty cell. -/
inductive PuyoColor
  | RED
  | GREEN
  | BLUE
  | YELLOW
  | PURPLE
  | NONE
deriving DecidableEq, Repr

/-- State of a Puyo (`enum PuyoState`). -/
inductive PuyoState
  | NORMAL
  | MARKED_FOR_DELETION
deriving DecidableEq, Repr

/-- A Puyo value: a color plus a deletion-marker state. -/
structure Puyo where
  color : PuyoColor
  state : PuyoState
deriving DecidableEq, Repr

/-- Function `createPuyo(color, state = NORMAL)`. -/
def createPuyo (color : PuyoColor) (state : PuyoState := PuyoState.NORMAL) : Puyo :=
  ⟨color, state⟩

/-- Function `createEmptyPuyo()`. -/
def createEmptyPuyo : Puyo := createPuyo PuyoColor.NONE

/-- Function `markPuyoForDeletion(puyo)`. -/
def markPuyoForDeletion (puyo : Puyo) : Puyo :=
  createPuyo puyo.color PuyoState.MARKED_FOR_DELETION

/-- Function `isEmpty(puyo)`: a Puyo is empty when its color is `NONE`. -/
def isEmpty (puyo : Puyo) : Bool := puyo.color == PuyoColor.NONE

/-! ## types.ts -/

/-- Position on the board (`type Position`). -/
structure Position where
  x : Int
  y : Int
deriving DecidableEq, Repr

/-! ## board.ts -/

def BOARD_WIDTH : Int := 6
def BOARD_HEIGHT : Int := 12
def HIDDEN_ROWS : Int := 2
def CRANE_ROW : Int := 0
def GHOST_ROW : Int := 1
def NORMAL_FIELD_START : Int := 2

/-- The game board: a grid of rows (`grid[y][x]`). -/
structure Board where
  grid : List (List Puyo)
deriving DecidableEq, Repr

/-- Error kinds of `BoardError`. -/
inductive BoardErrorType
  | OutOfBounds
  | InvalidOperation
deriving DecidableEq, Repr

/-- Type `BoardError`. -/
structure BoardError where
  type : BoardErrorType
  message : String
deriving DecidableEq, Repr

/-- Function `createBoard()`: a `(BOARD_HEIGHT + HIDDEN_ROWS) x BOARD_WIDTH`
grid of empty Puyos. -/
def createBoard : Board :=
  ⟨List.replicate (BOARD_HEIGHT + HIDDEN_ROWS).toNat
      (List.replicate BOARD_WIDTH.toNat createEmptyPuyo)⟩

/-- Function `isOutOfBounds(board, x, y)`. -/
def isOutOfBounds (board : Board) (x y : Int) : Bool :=
  x < 0 || BOARD_WIDTH ≤ x || y < 0 || (board.grid.length : Int) ≤ y

/-- Function `isGhostRow(y)`. -/
def isGhostRow (y : Int) : Bool := y == GHOST_ROW

/-- Function `isCraneRow(y)`. -/
def isCraneRow (y : Int) : Bool := y == CRANE_ROW

/-- Function `getPuyoAt(board, x, y)`: empty Puyo for out-of-range coordinates. -/
def getPuyoAt (board : Board) (x y : Int) : Puyo :=
  if isOutOfBounds board x y then createEmptyPuyo
  else (board.grid.getD y.toNat []).getD x.toNat createEmptyPuyo

/-- Function `setPuyoAt(board, x, y, puyo)`: fails with `OutOfBounds` outside the
grid, otherwise returns a new board with exactly that cell replaced. -/
def setPuyoAt (board : Board) (x y : Int) (puyo : Puyo) : Except BoardError Board :=
  if isOutOfBounds board x y then
    Except.error ⟨BoardErrorType.OutOfBounds, "Position is out of bounds"⟩
  else
    Except.ok ⟨board.grid.set y.toNat ((board.grid.getD y.toNat []).set x.toNat puyo)⟩

/-- Function `isEmptyAt(board, x, y)`. -/
def isEmptyAt (board : Board) (x y : Int) : Bool :=
  isEmpty (getPuyoAt board x y)

/-- Function `isColumnFull(board, x)`: tests the first normal-field row. -/
def isColumnFull (board : Board) (x : Int) : Bool :=
  !(isEmptyAt board x NORMAL_FIELD_START)

/-- Body of the inner loop of `applyGravity`: try to move the cell `(x, y)`
one step down into an empty cell directly below. -/
def gravityCellStep (st : Board × Bool) (x y : Int) : Board × Bool :=
  let puyo := getPuyoAt st.1 x y
  if !(isEmpty puyo) && isEmptyAt st.1 x (y + 1) then
    match setPuyoAt st.1 x (y + 1) puyo with
    | Except.error _ => st
    | Except.ok b1 =>
      match setPuyoAt b1 x y createEmptyPuyo with
      | Except.error _ => st
      | Except.ok b2 => (b2, true)
  else st

/-- The descending list of y values scanned by `applyGravity` in one column:
`board.grid.length - 2` down to `GHOST_ROW`. -/
def gravityYs (board : Board) : List Int :=
  ((List.range' 1 (board.grid.length - 2)).map (fun n : Nat => (n : Int))).reverse

/-- The x values `0 .. BOARD_WIDTH - 1` scanned by the outer loops. -/
def boardXs : List Int :=
  (List.range BOARD_WIDTH.toNat).map (fun n : Nat => (n : Int))

/-- Function `applyGravity(board)`: scans columns bottom-up, moving any
non-empty, non-crane-row cell down into an empty cell directly below, one
step per call; reports whether anything moved. -/
def applyGravity (board : Board) : Board × Bool :=
  boardXs.foldl
    (fun st x => (gravityYs board).foldl (fun st y => gravityCellStep st x y) st)
    (board, false)

/-! ## puyoPair.ts -/

/-- Rotation states of a pair (`enum RotationState`), numbered UP=0, RIGHT=1,
DOWN=2, LEFT=3. -/
inductive RotationState
  | UP
  | RIGHT
  | DOWN
  | LEFT
deriving DecidableEq, Repr

/-- The rotation reached by `(rotation + 1) % 4` under the enum numbering. -/
def rotNext : RotationState → RotationState
  | RotationState.UP => RotationState.RIGHT
  | RotationState.RIGHT => RotationState.DOWN
  | RotationState.DOWN => RotationState.LEFT
  | RotationState.LEFT => RotationState.UP

/-- The rotation reached by `(rotation + 3) % 4` under the enum numbering. -/
def rotPrev : RotationState → RotationState
  | RotationState.UP => RotationState.LEFT
  | RotationState.RIGHT => RotationState.UP
  | RotationState.DOWN => RotationState.RIGHT
  | RotationState.LEFT => RotationState.DOWN

/-- A falling pair (`type PuyoPair`). -/
structure PuyoPair where
  mainPuyo : Puyo
  secondPuyo : Puyo
  position : Position
  rotation : RotationState
deriving DecidableEq, Repr

/-- Error kinds of `PuyoPairError`. -/
inductive PuyoPairErrorType
  | InvalidMove
  | InvalidRotation
deriving DecidableEq, Repr

/-- Type `PuyoPairError`. -/
structure PuyoPairError where
  type : PuyoPairErrorType
  message : String
deriving DecidableEq, Repr

/-- Function `createPuyoPair(mainPuyo, secondPuyo, x, y, rotation)` with the
source's default arguments. -/
def createPuyoPair (mainPuyo secondPuyo : Puyo)
    (x : Int := BOARD_WIDTH / 2 - 1) (y : Int := NORMAL_FIELD_START)
    (rotation : RotationState := RotationState.UP) : PuyoPair :=
  ⟨mainPuyo, secondPuyo, ⟨x, y⟩, rotation⟩

/-- Function `getMainPosition(pair)`. -/
def getMainPosition (pair : PuyoPair) : Position := pair.position

/-- Function `getSecondPosition(pair)`: the second cell as an offset from the
anchor derived from the rotation. -/
def getSecondPosition (pair : PuyoPair) : Position :=
  match pair.rotation with
  | RotationState.UP => ⟨pair.position.x, pair.position.y - 1⟩
  | RotationState.RIGHT => ⟨pair.position.x + 1, pair.position.y⟩
  | RotationState.DOWN => ⟨pair.position.x, pair.position.y + 1⟩
  | RotationState.LEFT => ⟨pair.position.x - 1, pair.position.y⟩

/-- Function `moveLeft(pair, board)`. -/
def moveLeft (pair : PuyoPair) (board : Board) : Except PuyoPairError PuyoPair :=
  let newX := pair.position.x - 1
  let mainY := pair.position.y
  let secondPos := getSecondPosition pair
  let newSecondX := secondPos.x - 1
  if newX < 0 || newSecondX < 0 ||
      !(isEmptyAt board newX mainY) || !(isEmptyAt board newSecondX secondPos.y) then
    Except.error ⟨PuyoPairErrorType.InvalidMove, "Cannot move left"⟩
  else
    Except.ok { pair with position := ⟨newX, pair.position.y⟩ }

/-- Function `moveRight(pair, board)`. -/
def moveRight (pair : PuyoPair) (board : Board) : Except PuyoPairError PuyoPair :=
  let newX := pair.position.x + 1
  let mainY := pair.position.y
  let secondPos := getSecondPosition pair
  let newSecondX := secondPos.x + 1
  if BOARD_WIDTH ≤ newX || BOARD_WIDTH ≤ newSecondX ||
      !(isEmptyAt board newX mainY) || !(isEmptyAt board newSecondX secondPos.y) then
    Except.error ⟨PuyoPairErrorType.InvalidMove, "Cannot move right"⟩
  else
    Except.ok { pair with position := ⟨newX, pair.position.y⟩ }

/-- Function `moveDown(pair, board)`. -/
def moveDown (pair : PuyoPair) (board : Board) : Except PuyoPairError PuyoPair :=
  let newY := pair.position.y + 1
  let mainX := pair.position.x
  let secondPos := getSecondPosition pair
  let newSecondY := secondPos.y + 1
  if BOARD_HEIGHT + HIDDEN_ROWS ≤ newY || BOARD_HEIGHT + HIDDEN_ROWS ≤ newSecondY ||
      !(isEmptyAt board mainX newY) || !(isEmptyAt board secondPos.x newSecondY) then
    Except.error ⟨PuyoPairErrorType.InvalidMove, "Cannot move down"⟩
  else
    Except.ok { pair with position := ⟨pair.position.x, newY⟩ }

/-- Function `calculateRotationPosition(pair, newRotation)`: where the second
cell would be after rotating to `newRotation`. -/
def calculateRotationPosition (pair : PuyoPair) (newRotation : RotationState) : Position :=
  match newRotation with
  | RotationState.UP => ⟨pair.position.x, pair.position.y - 1⟩
  | RotationState.RIGHT => ⟨pair.position.x + 1, pair.position.y⟩
  | RotationState.DOWN => ⟨pair.position.x, pair.position.y + 1⟩
  | RotationState.LEFT => ⟨pair.position.x - 1, pair.position.y⟩

/-- The candidate anchor offsets tried by `tryWallKick`, depending on the
target rotation only. -/
def kickPositions (pair : PuyoPair) (newRotation : RotationState) : List (Int × Int) :=
  let x := pair.position.x
  let y := pair.position.y
  match newRotation with
  | RotationState.DOWN => [(x, y - 1)]
  | RotationState.RIGHT => [(x - 1, y)]
  | RotationState.LEFT => [(x + 1, y)]
  | RotationState.UP => [(x - 1, y), (x + 1, y), (x, y - 1), (x, y + 1)]

/-- Function `tryWallKick(pair, board, newRotation)`: the first candidate whose
shifted anchor cell and resulting second cell are in-bounds and empty. -/
def tryWallKick (pair : PuyoPair) (board : Board) (newRotation : RotationState) :
    Option Position :=
  ((kickPositions pair newRotation).find? fun kick =>
      let kickX := kick.1
      let kickY := kick.2
      if kickX < 0 || BOARD_WIDTH ≤ kickX || kickY < 0 ||
          BOARD_HEIGHT + HIDDEN_ROWS ≤ kickY then false
      else
        let testPair := createPuyoPair pair.mainPuyo pair.secondPuyo kickX kickY pair.rotation
        let testSecondPos := calculateRotationPosition testPair newRotation
        !(isOutOfBounds board testSecondPos.x testSecondPos.y) &&
          isEmptyAt board kickX kickY &&
          isEmptyAt board testSecondPos.x testSecondPos.y).map
    (fun kick => ⟨kick.1, kick.2⟩)

/-- Function `rotateClockwise(pair, board)`: rotate in place when the new
second cell is valid, otherwise wall-kick, otherwise `InvalidRotation`. -/
def rotateClockwise (pair : PuyoPair) (board : Board) : Except PuyoPairError PuyoPair :=
  let newRotation := rotNext pair.rotation
  let newSecondPos := calculateRotationPosition pair newRotation
  if !(isOutOfBounds board newSecondPos.x newSecondPos.y) &&
      isEmptyAt board newSecondPos.x newSecondPos.y then
    Except.ok { pair with rotation := newRotation }
  else
    match tryWallKick pair board newRotation with
    | some wallKickPos => Except.ok { pair with position := wallKickPos, rotation := newRotation }
    | none => Except.error ⟨PuyoPairErrorType.InvalidRotation, "Cannot rotate clockwise"⟩

/-- Function `rotateCounterClockwise(pair, board)`. -/
def rotateCounterClockwise (pair : PuyoPair) (board : Board) : Except PuyoPairError PuyoPair :=
  let newRotation := rotPrev pair.rotation
  let newSecondPos := calculateRotationPosition pair newRotation
  if !(isOutOfBounds board newSecondPos.x newSecondPos.y) &&
      isEmptyAt board newSecondPos.x newSecondPos.y then
    Except.ok { pair with rotation := newRotation }
  else
    match tryWallKick pair board newRotation with
    | some wallKickPos => Except.ok { pair with position := wallKickPos, rotation := newRotation }
    | none => Except.error ⟨PuyoPairErrorType.InvalidRotation, "Cannot rotate counter-clockwise"⟩

/-- Function `placeOnBoard(pair, board)`: writes both cells, propagating a
rejected write as `InvalidMove`. -/
def placeOnBoard (pair : PuyoPair) (board : Board) : Except PuyoPairError Board :=
  let mainPos := getMainPosition pair
  let secondPos := getSecondPosition pair
  match setPuyoAt board mainPos.x mainPos.y pair.mainPuyo with
  | Except.error _ =>
    Except.error ⟨PuyoPairErrorType.InvalidMove, "Cannot place main puyo on board"⟩
  | Except.ok b1 =>
    match setPuyoAt b1 secondPos.x secondPos.y pair.secondPuyo with
    | Except.error _ =>
      Except.error ⟨PuyoPairErrorType.InvalidMove, "Cannot place second puyo on board"⟩
    | Except.ok b2 => Except.ok b2

/-- Function `canExecuteQuickTurn(pair, board)`: rotation must be UP or DOWN
and both horizontal neighbors of the anchor must be blocked. -/
def canExecuteQuickTurn (pair : PuyoPair) (board : Board) : Bool :=
  if pair.rotation ≠ RotationState.UP && pair.rotation ≠ RotationState.DOWN then false
  else
    let leftX := pair.position.x - 1
    let rightX := pair.position.x + 1
    let mainY := pair.position.y
    let isLeftBlocked := leftX < 0 || !(isEmptyAt board leftX mainY)
    let isRightBlocked := BOARD_WIDTH ≤ rightX || !(isEmptyAt board rightX mainY)
    isLeftBlocked && isRightBlocked

/-- Function `executeQuickTurn(pair, board)`: on success the new anchor is the
old second-cell position and the rotation flips UP/DOWN. -/
def executeQuickTurn (pair : PuyoPair) (board : Board) : Except PuyoPairError PuyoPair :=
  if canExecuteQuickTurn pair board then
    let newMainPosition := getSecondPosition pair
    let newRotation :=
      if pair.rotation = RotationState.UP then RotationState.DOWN else RotationState.UP
    Except.ok { pair with rotation := newRotation, position := newMainPosition }
  else
    Except.error ⟨PuyoPairErrorType.InvalidMove, "Cannot execute quick turn"⟩

/-! ## score.ts -/

/-- Function `getChainBonus(chainCount)`. -/
def getChainBonus (chainCount : Nat) : Nat :=
  if chainCount ≤ 1 then 0
  else if chainCount ≤ 3 then 8 * (chainCount - 1)
  else 32 * (chainCount - 3)

/-- Function `getConnectionBonus(connectionCount)`. -/
def getConnectionBonus (connectionCount : Nat) : Nat :=
  if connectionCount ≤ 4 then 0
  else if 11 ≤ connectionCount then 10
  else connectionCount - 3

/-- Function `getColorBonus(colorCount)`: table lookup, defaulting to 0 outside
the table. -/
def getColorBonus (colorCount : Nat) : Nat :=
  [0, 3, 6, 12, 24].getD (colorCount - 1) 0

/-- Function `calculateScore(chainCount, puyoCount, connectionCounts, colorCount)`. -/
def calculateScore (chainCount puyoCount : Nat) (connectionCounts : List Nat)
    (colorCount : Nat) : Nat :=
  let chainBonus := getChainBonus chainCount
  let connectionBonus := connectionCounts.foldl (fun sum count => sum + getConnectionBonus count) 0
  let colorBonus := getColorBonus colorCount
  let totalBonus := chainBonus + connectionBonus + colorBonus
  puyoCount * 10 * max totalBonus 1

/-! ## puyoSeq.ts -/

/-- Type `PuyoSeq`: the ordered list of upcoming Puyos. -/
structure PuyoSeq where
  seq : List Puyo
deriving DecidableEq, Repr

/-- Color-letter decoding used by `createPuyoSeq`; unrecognized characters
default to red. -/
def decodeSeqChar (c : Char) : Puyo :=
  match c.toLower with
  | 'r' => createPuyo PuyoColor.RED
  | 'g' => createPuyo PuyoColor.GREEN
  | 'y' => createPuyo PuyoColor.YELLOW
  | 'b' => createPuyo PuyoColor.BLUE
  | 'p' => createPuyo PuyoColor.PURPLE
  | _ => createPuyo PuyoColor.RED

/-- Modelled from the spec: the module-level cache written by `loadSequences`.
The Result-returning revision of `puyoSeq.ts` used by the current `game.ts`
and by `puyoSeq.test.ts` is not among the source files (only older revisions
are), so the cache and `createPuyoSeq` are modelled from section 4.3 of the
spec.  `none` means the backing table has not finished loading. -/
def SeqCache : Type := Option (List String)

/-- Modelled from the spec: one completed load of the backing table.  The
table "is cached after first load" and is immutable thereafter, so a load
finding an existing cache leaves it unchanged. -/
def loadSequences (cache : SeqCache) (lines : List String) : SeqCache :=
  match cache with
  | Option.some cached => Option.some cached
  | Option.none => Option.some lines

/-- Modelled from the spec: `createPuyoSeq(seed)` "returns the cached
256-color sequence selected by `seed mod lineCount`, or a 'not loaded yet'
error on first call before the backing table has finished loading"; the
color-letter decoding is table-driven with unrecognized characters decoding
to the first defined color. -/
def createPuyoSeq (cache : SeqCache) (seed : Nat) : Except String PuyoSeq :=
  match cache with
  | Option.none => Except.error "PuyoSeq not loaded yet. Please retry later."
  | Option.some lines =>
    Except.ok ⟨((lines.getD (seed % lines.length) "").toList).map decodeSeqChar⟩

/-! ## game.ts -/

/-- States of the game state machine (`enum GameState`). -/
inductive GameState
  | IDLE
  | PLAYING
  | DROPPING
  | CHECKING_CHAINS
  | FLASHING_PUYOS
  | GAME_OVER
deriving DecidableEq, Repr

/-- Error kinds of `GameError`. -/
inductive GameErrorType
  | InvalidState
  | GameOver
  | PuyoSeqNotLoaded
deriving DecidableEq, Repr

/-- Type `GameError`. -/
structure GameError where
  type : GameErrorType
  message : String
deriving DecidableEq, Repr

/-- The game snapshot (`type Game`). -/
structure Game where
  board : Board
  currentPair : Option PuyoPair
  nextPair : PuyoPair
  state : GameState
  score : Nat
  chainCount : Nat
  flashingTime : Nat
  puyoSeq : PuyoSeq
  moveCount : Nat
deriving DecidableEq, Repr

/-- Constant `FLASHING_DURATION` (milliseconds). -/
def FLASHING_DURATION : Nat := 500

/-- Function `spawnNextPair(game)`: promotes `nextPair`, draws the following
pair from the sequence (indices wrap modulo its length), and enters
`GAME_OVER` when a spawn cell is occupied. -/
def spawnNextPair (game : Game) : Game :=
  let currentPair := game.nextPair
  let moveCount := game.moveCount
  let seqLength := game.puyoSeq.seq.length
  let mainPuyoIndex := (moveCount * 2) % seqLength
  let secondPuyoIndex := (moveCount * 2 + 1) % seqLength
  let mainPuyo := game.puyoSeq.seq.getD mainPuyoIndex createEmptyPuyo
  let secondPuyo := game.puyoSeq.seq.getD secondPuyoIndex createEmptyPuyo
  let nextPair := createPuyoPair mainPuyo secondPuyo
  let mainPos := getMainPosition currentPair
  let secondPos := getSecondPosition currentPair
  if !(isEmptyAt game.board mainPos.x mainPos.y) ||
      !(isEmptyAt game.board secondPos.x secondPos.y) then
    { game with currentPair := some currentPair, nextPair := nextPair,
                state := GameState.GAME_OVER }
  else
    { game with currentPair := some currentPair, nextPair := nextPair,
                moveCount := moveCount + 1 }

/-- Function `moveLeftInGame(game)`. -/
def moveLeftInGame (game : Game) : Except GameError Game :=
  match game.state, game.currentPair with
  | GameState.PLAYING, some pair =>
    match moveLeft pair game.board with
    | Except.error _ => Except.ok game
    | Except.ok moved => Except.ok { game with currentPair := some moved }
  | _, _ => Except.error ⟨GameErrorType.InvalidState, "Cannot move left in current state"⟩

/-- Function `moveRightInGame(game)`. -/
def moveRightInGame (game : Game) : Except GameError Game :=
  match game.state, game.currentPair with
  | GameState.PLAYING, some pair =>
    match moveRight pair game.board with
    | Except.error _ => Except.ok game
    | Except.ok moved => Except.ok { game with currentPair := some moved }
  | _, _ => Except.error ⟨GameErrorType.InvalidState, "Cannot move right in current state"⟩

/-- Function `moveDownInGame(game)`: places the pair on the board when it
cannot descend further. -/
def moveDownInGame (game : Game) : Except GameError Game :=
  match game.state, game.currentPair with
  | GameState.PLAYING, some pair =>
    match moveDown pair game.board with
    | Except.ok moved => Except.ok { game with currentPair := some moved }
    | Except.error _ =>
      match placeOnBoard pair game.board with
      | Except.error _ => Except.error ⟨GameErrorType.GameOver, "Cannot place pair on board"⟩
      | Except.ok placed =>
        Except.ok { game with board := placed, currentPair := none,
                              state := GameState.DROPPING }
  | _, _ => Except.error ⟨GameErrorType.InvalidState, "Cannot move down in current state"⟩

/-- Function `rotateClockwiseInGame(game)`: a failed rotation is surfaced as
an `InvalidState` error. -/
def rotateClockwiseInGame (game : Game) : Except GameError Game :=
  match game.state, game.currentPair with
  | GameState.PLAYING, some pair =>
    match rotateClockwise pair game.board with
    | Except.error _ => Except.error ⟨GameErrorType.InvalidState, "Cannot rotate in current state"⟩
    | Except.ok rotated => Except.ok { game with currentPair := some rotated }
  | _, _ => Except.error ⟨GameErrorType.InvalidState, "Cannot rotate in current state"⟩

/-- Function `rotateCounterClockwiseInGame(game)`. -/
def rotateCounterClockwiseInGame (game : Game) : Except GameError Game :=
  match game.state, game.currentPair with
  | GameState.PLAYING, some pair =>
    match rotateCounterClockwise pair game.board with
    | Except.error _ => Except.error ⟨GameErrorType.InvalidState, "Cannot rotate in current state"⟩
    | Except.ok rotated => Except.ok { game with currentPair := some rotated }
  | _, _ => Except.error ⟨GameErrorType.InvalidState, "Cannot rotate in current state"⟩

/-- Function `executeQuickTurnInGame(game)`. -/
def executeQuickTurnInGame (game : Game) : Except GameError Game :=
  match game.state, game.currentPair with
  | GameState.PLAYING, some pair =>
    match executeQuickTurn pair game.board with
    | Except.error _ =>
      Except.error ⟨GameErrorType.InvalidState, "Cannot execute quick turn in current state"⟩
    | Except.ok turned => Except.ok { game with currentPair := some turned }
  | _, _ =>
    Except.error ⟨GameErrorType.InvalidState, "Cannot execute quick turn in current state"⟩

/-- The `while (moved)` loop of `hardDrop`: keep applying `moveDown` until it
fails.  The source loop terminates because the anchor's y strictly increases
and is bounded by the board height; the fuel is a bound on that iteration
count for any pair whose cells start on or above the board. -/
def hardDropLoop (fuel : Nat) (pair : PuyoPair) (board : Board) : PuyoPair :=
  match fuel with
  | 0 => pair
  | fuel + 1 =>
    match moveDown pair board with
    | Except.ok moved => hardDropLoop fuel moved board
    | Except.error _ => pair

/-- Function `hardDrop(game)`: drop the current pair as far as it goes, place
it, clear `currentPair`, and enter `DROPPING`. -/
def hardDrop (game : Game) : Except GameError Game :=
  match game.state, game.currentPair with
  | GameState.PLAYING, some pair =>
    let dropped := hardDropLoop ((BOARD_HEIGHT + HIDDEN_ROWS).toNat + 2) pair game.board
    match placeOnBoard dropped game.board with
    | Except.error _ => Except.error ⟨GameErrorType.GameOver, "Cannot place pair on board"⟩
    | Except.ok placed =>
      Except.ok { game with board := placed, currentPair := none,
                            state := GameState.DROPPING }
  | _, _ => Except.error ⟨GameErrorType.InvalidState, "Cannot hard drop in current state"⟩

/-- Function `findConnectedPuyos(board, x, y, color, visited, group)`: DFS over
4-directional neighbors collecting same-colored cells, excluding the ghost
and crane rows.  The boolean matrix `visited` is represented by the list of
visited positions; the source recursion terminates because `visited` grows
on every recursive step, so any fuel larger than the number of cells plus
one reproduces it exactly. -/
def findConnectedPuyos (fuel : Nat) (board : Board) (x y : Int) (color : PuyoColor)
    (visited : List Position) (group : List Position) : List Position × List Position :=
  match fuel with
  | 0 => (visited, group)
  | fuel + 1 =>
    if isOutOfBounds board x y || visited.contains ⟨x, y⟩ || isEmptyAt board x y ||
        (getPuyoAt board x y).color ≠ color || isGhostRow y || isCraneRow y then
      (visited, group)
    else
      let visited1 := Position.mk x y :: visited
      let group1 := group ++ [Position.mk x y]
      let r1 := findConnectedPuyos fuel board (x + 1) y color visited1 group1
      let r2 := findConnectedPuyos fuel board (x - 1) y color r1.1 r1.2
      let r3 := findConnectedPuyos fuel board x (y + 1) color r2.1 r2.2
      findConnectedPuyos fuel board x (y - 1) color r3.1 r3.2

/-- Accumulator of the scan in `checkAndMarkChainsForDeletion`: the shared
visited set, the board being marked, whether any group qualified, and the
data collected for scoring (`groupConnections`, `totalPuyoCount`, the set of
distinct cleared colors kept as a duplicate-free list). -/
structure ChainScan where
  visited : List Position
  board : Board
  chainsFound : Bool
  groupConnections : List Nat
  totalPuyoCount : Nat
  uniqueColors : List PuyoColor
deriving DecidableEq, Repr

/-- The y values `NORMAL_FIELD_START .. board.grid.length - 1` scanned by the
chain-detection and removal loops. -/
def chainYs (board : Board) : List Int :=
  (List.range' 2 (board.grid.length - 2)).map (fun n : Nat => (n : Int))

/-- Marking pass of `checkAndMarkChainsForDeletion` for one qualifying group. -/
def markGroup (board : Board) (group : List Position) : Board :=
  group.foldl
    (fun b pos =>
      match setPuyoAt b pos.x pos.y (markPuyoForDeletion (getPuyoAt b pos.x pos.y)) with
      | Except.ok nb => nb
      | Except.error _ => b)
    board

/-- Body of the scan in `checkAndMarkChainsForDeletion` for one cell. -/
def chainScanCell (st : ChainScan) (x y : Int) : ChainScan :=
  if st.visited.contains ⟨x, y⟩ || isEmptyAt st.board x y then st
  else
    let color := (getPuyoAt st.board x y).color
    let r := findConnectedPuyos (st.board.grid.length * BOARD_WIDTH.toNat + 1)
      st.board x y color st.visited []
    if 4 ≤ r.2.length then
      { visited := r.1
        board := markGroup st.board r.2
        chainsFound := true
        groupConnections := st.groupConnections ++ [r.2.length]
        totalPuyoCount := st.totalPuyoCount + r.2.length
        uniqueColors :=
          if st.uniqueColors.contains color then st.uniqueColors
          else st.uniqueColors ++ [color] }
    else { st with visited := r.1 }

/-- Function `checkAndMarkChainsForDeletion(board, chainCount)`: flood-fill
every normal-field cell, mark components of size at least 4, and score them
with `calculateScore`. -/
def checkAndMarkChainsForDeletion (board : Board) (chainCount : Nat) :
    Board × Bool × Nat :=
  let init : ChainScan := ⟨[], board, false, [], 0, []⟩
  let st := (chainYs board).foldl
    (fun st y => boardXs.foldl (fun st x => chainScanCell st x y) st) init
  let totalScore :=
    if st.chainsFound then
      calculateScore (chainCount + 1) st.totalPuyoCount st.groupConnections
        st.uniqueColors.length
    else 0
  (st.board, st.chainsFound, totalScore)

/-- Function `removeMarkedPuyos(board)`: replace every marked cell of the
normal field with an empty cell. -/
def removeMarkedPuyos (board : Board) : Board :=
  (chainYs board).foldl
    (fun b y => boardXs.foldl
      (fun b x =>
        let puyo := getPuyoAt b x y
        if !(isEmpty puyo) && puyo.state = PuyoState.MARKED_FOR_DELETION then
          match setPuyoAt b x y createEmptyPuyo with
          | Except.ok nb => nb
          | Except.error _ => b
        else b)
      b)
    board

/-- Function `updateGame(game)`: the single per-tick driver of the state
machine. -/
def updateGame (game : Game) : Game :=
  match game.state with
  | GameState.IDLE => game
  | GameState.PLAYING => game
  | GameState.DROPPING =>
    let r := applyGravity game.board
    if r.2 then { game with board := r.1 }
    else { game with board := r.1, state := GameState.CHECKING_CHAINS }
  | GameState.CHECKING_CHAINS =>
    let r := checkAndMarkChainsForDeletion game.board game.chainCount
    if r.2.1 then
      { game with board := r.1, state := GameState.FLASHING_PUYOS,
                  score := game.score + r.2.2, chainCount := game.chainCount + 1,
                  flashingTime := 0 }
    else
      let gameWithNextPair := spawnNextPair { game with board := r.1, chainCount := 0 }
      if gameWithNextPair.state ≠ GameState.GAME_OVER then
        { gameWithNextPair with state := GameState.PLAYING }
      else gameWithNextPair
  | GameState.FLASHING_PUYOS =>
    let newFlashingTime := game.flashingTime + 16
    if FLASHING_DURATION ≤ newFlashingTime then
      { game with board := removeMarkedPuyos game.board, state := GameState.DROPPING,
                  flashingTime := 0 }
    else { game with flashingTime := newFlashingTime }
  | GameState.GAME_OVER => game

/-! ## Concrete boards and games used by the claims -/

/-- Cell notation for concrete test boards: uppercase letters are normal
colored cells, lowercase letters are cells marked for deletion, a dot is
empty. -/
def cellOfChar (c : Char) : Puyo :=
  match c with
  | 'R' => createPuyo PuyoColor.RED
  | 'G' => createPuyo PuyoColor.GREEN
  | 'B' => createPuyo PuyoColor.BLUE
  | 'Y' => createPuyo PuyoColor.YELLOW
  | 'P' => createPuyo PuyoColor.PURPLE
  | 'r' => createPuyo PuyoColor.RED PuyoState.MARKED_FOR_DELETION
  | 'g' => createPuyo PuyoColor.GREEN PuyoState.MARKED_FOR_DELETION
  | 'b' => createPuyo PuyoColor.BLUE PuyoState.MARKED_FOR_DELETION
  | 'y' => createPuyo PuyoColor.YELLOW PuyoState.MARKED_FOR_DELETION
  | 'p' => createPuyo PuyoColor.PURPLE PuyoState.MARKED_FOR_DELETION
  | _ => createEmptyPuyo

/-- Build a board from row strings (top row first). -/
def mkTestBoard (rows : List String) : Board :=
  ⟨rows.map (fun s => s.toList.map cellOfChar)⟩

/-- A fixed sequence used by the concrete games. -/
def testSeq : PuyoSeq := ⟨(String.toList "rgbyprgbyp").map decodeSeqChar⟩

/-- A game in `DROPPING` state over the given board, as the score-calculation
suite prepares it. -/
def mkChainGame (rows : List String) : Game :=
  { board := mkTestBoard rows
    currentPair := none
    nextPair := createPuyoPair (createPuyo PuyoColor.RED) (createPuyo PuyoColor.BLUE)
    state := GameState.DROPPING
    score := 0
    chainCount := 0
    flashingTime := 0
    puyoSeq := testSeq
    moveCount := 1 }

/-- Iterate `updateGame` until the state becomes `PLAYING` or `GAME_OVER`
(with fuel; 200 ticks is far more than the scenarios need). -/
def runUntilSettled (fuel : Nat) (g : Game) : Game :=
  match fuel with
  | 0 => g
  | fuel + 1 =>
    if g.state = GameState.PLAYING ∨ g.state = GameState.GAME_OVER then g
    else runUntilSettled fuel (updateGame g)

/-- Board of the 920-point scenario: a 7-cell red group, whose clearing
reveals two separate 4-cell blue groups. -/
def g920 : Game := mkChainGame
  ["......", "......", "......", "......", "......", "......", "......", "......",
   "......", "BRB...", "RRR...", "BRB...", "BRB...", "BRB..."]

/-- Board of the 1160-point scenario: red 7-group, then a blue 4-group and a
yellow 4-group. -/
def g1160 : Game := mkChainGame
  ["......", "......", "......", "......", "......", "......", "......", "......",
   "......", "BRY...", "RRR...", "BRY...", "BRY...", "BRY..."]

/-- Board of the 1380-point scenario: red 7-group, then a blue 4-group and a
blue 6-group. -/
def g1380 : Game := mkChainGame
  ["......", "......", "......", "......", "......", "......", "......", "B.....",
   "B.....", "BRB...", "RRR...", "BRB...", "BRB...", "BRB..."]

/-- Board of the 1480-point scenario: red 7-group, then two blue 5-groups. -/
def g1480 : Game := mkChainGame
  ["......", "......", "......", "......", "......", "......", "......", "......",
   "B.B...", "BRB...", "RRR...", "BRB...", "BRB...", "BRB..."]


/-- Intermediate snapshot of the scenario runs: a game over the given board
in the given state with the original next pair still pending. -/
def mkGameLit (rows : List String) (st : GameState) (score chain flash : Nat) : Game :=
  { board := mkTestBoard rows
    currentPair := none
    nextPair := createPuyoPair (createPuyo PuyoColor.RED) (createPuyo PuyoColor.BLUE)
    state := st
    score := score
    chainCount := chain
    flashingTime := flash
    puyoSeq := testSeq
    moveCount := 1 }

/-- Final snapshot of a scenario run: empty board, next pair spawned from the
sequence, back in `PLAYING`. -/
def mkGameFinal (score : Nat) : Game :=
  { board := mkTestBoard ["......", "......", "......", "......", "......", "......", "......",
      "......", "......", "......", "......", "......", "......", "......"]
    currentPair := some (createPuyoPair (createPuyo PuyoColor.RED) (createPuyo PuyoColor.BLUE))
    nextPair := createPuyoPair (createPuyo PuyoColor.BLUE) (createPuyo PuyoColor.YELLOW)
    state := GameState.PLAYING
    score := score
    chainCount := 0
    flashingTime := 0
    puyoSeq := testSeq
    moveCount := 2 }

/-- The 920-point scenario after 12 ticks. -/
def g920s12 : Game :=
  mkGameLit ["......", "......", "......", "......", "......", "......", "......", "......", "......", "BrB...", "rrr...", "BrB...", "BrB...", "BrB..."]
    GameState.FLASHING_PUYOS 280 1 160

/-- The 920-point scenario after 24 ticks. -/
def g920s24 : Game :=
  mkGameLit ["......", "......", "......", "......", "......", "......", "......", "......", "......", "BrB...", "rrr...", "BrB...", "BrB...", "BrB..."]
    GameState.FLASHING_PUYOS 280 1 352

/-- The 920-point scenario after 36 ticks. -/
def g920s36 : Game :=
  mkGameLit ["......", "......", "......", "......", "......", "......", "......", "......", "......", "......", "B.B...", "B.B...", "B.B...", "B.B..."]
    GameState.CHECKING_CHAINS 280 1 0

/-- The 920-point scenario after 48 ticks. -/
def g920s48 : Game :=
  mkGameLit ["......", "......", "......", "......", "......", "......", "......", "......", "......", "......", "b.b...", "b.b...", "b.b...", "b.b..."]
    GameState.FLASHING_PUYOS 920 2 176

/-- The 920-point scenario after 60 ticks. -/
def g920s60 : Game :=
  mkGameLit ["......", "......", "......", "......", "......", "......", "......", "......", "......", "......", "b.b...", "b.b...", "b.b...", "b.b..."]
    GameState.FLASHING_PUYOS 920 2 368

/-- The 1160-point scenario after 12 ticks. -/
def g1160s12 : Game :=
  mkGameLit ["......", "......", "......", "......", "......", "......", "......", "......", "......", "BrY...", "rrr...", "BrY...", "BrY...", "BrY..."]
    GameState.FLASHING_PUYOS 280 1 160

/-- The 1160-point scenario after 24 ticks. -/
def g1160s24 : Game :=
  mkGameLit ["......", "......", "......", "......", "......", "......", "......", "......", "......", "BrY...", "rrr...", "BrY...", "BrY...", "BrY..."]
    GameState.FLASHING_PUYOS 280 1 352

/-- The 1160-point scenario after 36 ticks. -/
def g1160s36 : Game :=
  mkGameLit ["......", "......", "......", "......", "......", "......", "......", "......", "......", "......", "B.Y...", "B.Y...", "B.Y...", "B.Y..."]
    GameState.CHECKING_CHAINS 280 1 0

/-- The 1160-point scenario after 48 ticks. -/
def g1160s48 : Game :=
  mkGameLit ["......", "......", "......", "......", "......", "......", "......", "......", "......", "......", "b.y...", "b.y...", "b.y...", "b.y..."]
    GameState.FLASHING_PUYOS 1160 2 176

/-- The 1160-point scenario after 60 ticks. -/
def g1160s60 : Game :=
  mkGameLit ["......", "......", "......", "......", "......", "......", "......", "......", "......", "......", "b.y...", "b.y...", "b.y...", "b.y..."]
    GameState.FLASHING_PUYOS 1160 2 368

/-- The 1380-point scenario after 12 ticks. -/
def g1380s12 : Game :=
  mkGameLit ["......", "......", "......", "......", "......", "......", "......", "B.....", "B.....", "BrB...", "rrr...", "BrB...", "BrB...", "BrB..."]
    GameState.FLASHING_PUYOS 280 1 160

/-- The 1380-point scenario after 24 ticks. -/
def g1380s24 : Game :=
  mkGameLit ["......", "......", "......", "......", "......", "......", "......", "B.....", "B.....", "BrB...", "rrr...", "BrB...", "BrB...", "BrB..."]
    GameState.FLASHING_PUYOS 280 1 352

/-- The 1380-point scenario after 36 ticks. -/
def g1380s36 : Game :=
  mkGameLit ["......", "......", "......", "......", "......", "......", "......", "......", "B.....", "B.....", "B.B...", "B.B...", "B.B...", "B.B..."]
    GameState.CHECKING_CHAINS 280 1 0

/-- The 1380-point scenario after 48 ticks. -/
def g1380s48 : Game :=
  mkGameLit ["......", "......", "......", "......", "......", "......", "......", "......", "b.....", "b.....", "b.b...", "b.b...", "b.b...", "b.b..."]
    GameState.FLASHING_PUYOS 1380 2 176

/-- The 1380-point scenario after 60 ticks. -/
def g1380s60 : Game :=
  mkGameLit ["......", "......", "......", "......", "......", "......", "......", "......", "b.....", "b.....", "b.b...", "b.b...", "b.b...", "b.b..."]
    GameState.FLASHING_PUYOS 1380 2 368

/-- The 1480-point scenario after 12 ticks. -/
def g1480s12 : Game :=
  mkGameLit ["......", "......", "......", "......", "......", "......", "......", "......", "B.B...", "BrB...", "rrr...", "BrB...", "BrB...", "BrB..."]
    GameState.FLASHING_PUYOS 280 1 160

/-- The 1480-point scenario after 24 ticks. -/
def g1480s24 : Game :=
  mkGameLit ["......", "......", "......", "......", "......", "......", "......", "......", "B.B...", "BrB...", "rrr...", "BrB...", "BrB...", "BrB..."]
    GameState.FLASHING_PUYOS 280 1 352

/-- The 1480-point scenario after 36 ticks. -/
def g1480s36 : Game :=
  mkGameLit ["......", "......", "......", "......", "......", "......", "......", "......", "......", "B.B...", "B.B...", "B.B...", "B.B...", "B.B..."]
    GameState.CHECKING_CHAINS 280 1 0

/-- The 1480-point scenario after 48 ticks. -/
def g1480s48 : Game :=
  mkGameLit ["......", "......", "......", "......", "......", "......", "......", "......", "......", "b.b...", "b.b...", "b.b...", "b.b...", "b.b..."]
    GameState.FLASHING_PUYOS 1480 2 176

/-- The 1480-point scenario after 60 ticks. -/
def g1480s60 : Game :=
  mkGameLit ["......", "......", "......", "......", "......", "......", "......", "......", "......", "b.b...", "b.b...", "b.b...", "b.b...", "b.b..."]
    GameState.FLASHING_PUYOS 1480 2 368

/-! ## Spec-side definitions

These follow the wording of the specification (not the code) and are compared
with the embedded source functions in the theorems below. -/

/-- Chain bonus as the spec words it: 0 for chain 1, `8*(chain-1)` for chains
2 and 3, `32*(chain-3)` for chain at least 4. -/
def specChainBonus (chain : Nat) : Nat :=
  if chain = 1 then 0
  else if chain = 2 ∨ chain = 3 then 8 * (chain - 1)
  else 32 * (chain - 3)

/-- Per-group connection bonus as the spec words it: 0 for a group of exactly
4, `size-3` for sizes 5 to 10, 10 for sizes at least 11. -/
def specConnectionBonus (size : Nat) : Nat :=
  if size = 4 then 0
  else if 5 ≤ size ∧ size ≤ 10 then size - 3
  else 10

/-- Color bonus table as the spec words it, indexed by the distinct-color
count 1 to 5. -/
def specColorBonus (colorCount : Nat) : Nat :=
  match colorCount with
  | 1 => 0
  | 2 => 3
  | 3 => 6
  | 4 => 12
  | 5 => 24
  | _ => 0

/-- A cell is blocked, in the words of the quick-turn rule, when it is
off-board or occupied. -/
def SpecBlocked (board : Board) (x y : Int) : Prop :=
  isOutOfBounds board x y = true ∨ isEmptyAt board x y = false

/-- The spec's applicability condition for a quick turn: rotation is UP or
DOWN and both horizontal neighbors of the anchor are blocked. -/
def SpecQuickTurnCond (pair : PuyoPair) (board : Board) : Prop :=
  (pair.rotation = RotationState.UP ∨ pair.rotation = RotationState.DOWN) ∧
    SpecBlocked board (pair.position.x - 1) pair.position.y ∧
    SpecBlocked board (pair.position.x + 1) pair.position.y

/-- The player commands of the game's command surface. -/
inductive GameCmd
  | moveLeftCmd
  | moveRightCmd
  | moveDownCmd
  | rotateCWCmd
  | rotateCCWCmd
  | quickTurnCmd
  | hardDropCmd
deriving DecidableEq, Repr

/-- Dispatch a player command to the corresponding game operation. -/
def applyCommand : GameCmd → Game → Except GameError Game
  | GameCmd.moveLeftCmd => moveLeftInGame
  | GameCmd.moveRightCmd => moveRightInGame
  | GameCmd.moveDownCmd => moveDownInGame
  | GameCmd.rotateCWCmd => rotateClockwiseInGame
  | GameCmd.rotateCCWCmd => rotateCounterClockwiseInGame
  | GameCmd.quickTurnCmd => executeQuickTurnInGame
  | GameCmd.hardDropCmd => hardDrop

/-- A sequence of load completions applied to the sequence cache over one
process lifetime. -/
def applyLoads (init : SeqCache) (loads : List (List String)) : SeqCache :=
  loads.foldl loadSequences init

/-- An idle game used as a concrete input for the invalid-state claim. -/
def gIdle : Game :=
  { board := createBoard
    currentPair := none
    nextPair := createPuyoPair (createPuyo PuyoColor.RED) (createPuyo PuyoColor.BLUE)
    state := GameState.IDLE
    score := 0
    chainCount := 0
    flashingTime := 0
    puyoSeq := testSeq
    moveCount := 1 }

/-- A playing game over an empty board whose current pair sits at the spawn
cell, used as a concrete input. -/
def gPlaying : Game :=
  { gIdle with
    state := GameState.PLAYING
    currentPair := some (createPuyoPair (createPuyo PuyoColor.RED) (createPuyo PuyoColor.BLUE)) }

/-- A playing game whose current pair is horizontal (rotation RIGHT) at the
spawn cell, over an empty board. -/
def gPlayingRight : Game :=
  { gIdle with
    state := GameState.PLAYING
    currentPair := some (createPuyoPair (createPuyo PuyoColor.RED) (createPuyo PuyoColor.BLUE)
      2 2 RotationState.RIGHT) }

/-- A playing game whose current pair points DOWN at the spawn cell, over an
empty board. -/
def gPlayingDown : Game :=
  { gIdle with
    state := GameState.PLAYING
    currentPair := some (createPuyoPair (createPuyo PuyoColor.RED) (createPuyo PuyoColor.BLUE)
      2 2 RotationState.DOWN) }

/-- A pair at the right wall, used to exhibit the wall-kick effect on the
rotation round trip. -/
def pairX5 : PuyoPair :=
  createPuyoPair (createPuyo PuyoColor.RED) (createPuyo PuyoColor.BLUE) 5 5 RotationState.UP

/-- Well-formed board shape: 14 rows of 6 cells, as `createBoard` builds it
and every board operation preserves. -/
def BoardWF (b : Board) : Prop :=
  b.grid.length = 14 ∧ ∀ row ∈ b.grid, row.length = 6

/-- A concrete one-line backing table whose line has 256 characters. -/
def seqLine256 : String := String.mk (List.replicate 256 'r')

/-- The column `x` of a board, read top to bottom. -/
def column (b : Board) (x : Int) : List Puyo :=
  (List.range 14).map (fun n : Nat => getPuyoAt b x (n : Int))

/-- The multiset of non-empty Puyos in column `x`. -/
def columnPuyos (b : Board) (x : Int) : Multiset Puyo :=
  ((column b x).filter (fun p => !(isEmpty p)) : List Puyo)

/-- Invariant of the gravity scan inside one column: `cur` is the board after
processing the rows `grid.length - 2` down to `k` of column `x` of `bin`:
other columns are untouched, rows above `k` are untouched, every non-empty
cell holds its original Puyo or the Puyo from the cell directly above, and
the top-to-bottom sequence of non-empty Puyos of the column is unchanged. -/
def GravColInv (bin cur : Board) (x k : Int) : Prop :=
  BoardWF cur ∧
  (∀ x' y' : Int, x' ≠ x → getPuyoAt cur x' y' = getPuyoAt bin x' y') ∧
  (∀ y' : Int, y' < k → getPuyoAt cur x y' = getPuyoAt bin x y') ∧
  (∀ y' : Int, isEmpty (getPuyoAt cur x y') = false →
    getPuyoAt cur x y' = getPuyoAt bin x y' ∨
      (k ≤ y' ∧ getPuyoAt cur x y' = getPuyoAt bin x (y' - 1))) ∧
  (column cur x).filter (fun p => !(isEmpty p)) =
    (column bin x).filter (fun p => !(isEmpty p))

/-- Result of fully processing column `x`: every non-empty cell holds its
original Puyo or the Puyo from directly above (and the crane row, `y = 0`,
never receives one), and the sequence of non-empty Puyos of the column is
unchanged. -/
def GravColDone (bin cur : Board) (x : Int) : Prop :=
  (∀ y' : Int, isEmpty (getPuyoAt cur x y') = false →
    getPuyoAt cur x y' = getPuyoAt bin x y' ∨
      (1 ≤ y' ∧ getPuyoAt cur x y' = getPuyoAt bin x (y' - 1))) ∧
  (column cur x).filter (fun p => !(isEmpty p)) =
    (column bin x).filter (fun p => !(isEmpty p))

/-- The guard of `findConnectedPuyos` read positively: a cell admissible as a
member of a chain group of color `c` (in bounds, non-empty, of color `c`,
outside the ghost and crane rows). -/
def allowedCell (b : Board) (c : PuyoColor) (p : Position) : Bool :=
  !(isOutOfBounds b p.x p.y) && !(isEmptyAt b p.x p.y) &&
    decide ((getPuyoAt b p.x p.y).color = c) && !(isGhostRow p.y) && !(isCraneRow p.y)

/-- 4-directional adjacency, as explored by the flood fill. -/
def adjacentPos (p q : Position) : Prop :=
  q = ⟨p.x + 1, p.y⟩ ∨ q = ⟨p.x - 1, p.y⟩ ∨ q = ⟨p.x, p.y + 1⟩ ∨ q = ⟨p.x, p.y - 1⟩

/-- One traversal step of the flood fill for color `c`: move to an adjacent
admissible cell. -/
def chainStep (b : Board) (c : PuyoColor) (p q : Position) : Prop :=
  adjacentPos p q ∧ allowedCell b c q = true

/-- Reachability through admissible cells of color `c`. -/
def chainReach (b : Board) (c : PuyoColor) : Position → Position → Prop :=
  Relation.ReflTransGen (chainStep b c)

/-- The connected same-colored group of cell `p` (the spec's notion): all
cells reachable from `p` through chains of 4-directionally adjacent,
non-empty cells of `p`'s color lying outside the ghost and crane rows. -/
def component (b : Board) (p : Position) : Set Position :=
  {q | chainReach b ((getPuyoAt b p.x p.y).color) p q}

/-- The positions of the full grid, enumerated row-major. -/
def allPositions (b : Board) : List Position :=
  (List.range (b.grid.length * BOARD_WIDTH.toNat)).map
    (fun n : Nat =>
      ⟨((n % BOARD_WIDTH.toNat : Nat) : Int), ((n / BOARD_WIDTH.toNat : Nat) : Int)⟩)

/-- The number of admissible cells of color `c` not yet visited: the measure
that shrinks on every marking step of the flood fill. -/
def freeCount (b : Board) (c : PuyoColor) (V : List Position) : Nat :=
  (allPositions b).countP (fun p => allowedCell b c p && !(decide (p ∈ V)))

/-- Invariant of the scan of `checkAndMarkChainsForDeletion` over the cells
of the normal field: the board keeps its shape and colors (marking only
changes states), the shared visited set holds admissible cells and is closed
under same-color adjacency, and a cell is marked exactly when it has been
visited and its connected group has at least 4 members. -/
structure ScanInv (b0 : Board) (st : ChainScan) : Prop where
  wf : BoardWF st.board
  len : st.board.grid.length = b0.grid.length
  colors : ∀ x y : Int, (getPuyoAt st.board x y).color = (getPuyoAt b0 x y).color
  vAllowed : ∀ p ∈ st.visited, allowedCell b0 ((getPuyoAt b0 p.x p.y).color) p = true
  vClosed : ∀ p ∈ st.visited, ∀ q : Position,
    chainStep b0 ((getPuyoAt b0 p.x p.y).color) p q → q ∈ st.visited
  vNodup : st.visited.Nodup
  marked : ∀ p : Position,
    (getPuyoAt st.board p.x p.y).state = PuyoState.MARKED_FOR_DELETION ↔
      (p ∈ st.visited ∧ 4 ≤ (component b0 p).ncard)

/-! ## Theorems -/

/-! ### Basic facts about the empty board -/

theorem getPuyoAt_createBoard (x y : Int) : getPuyoAt createBoard x y = createEmptyPuyo := by
  have hb : createBoard = ⟨List.replicate 14 (List.replicate 6 createEmptyPuyo)⟩ := rfl
  unfold getPuyoAt
  split
  · rfl
  · rename_i h
    rw [hb] at h ⊢
    simp only [isOutOfBounds, BOARD_WIDTH, List.length_replicate, Bool.or_eq_true,
      decide_eq_true_eq, not_or] at h
    obtain ⟨⟨⟨hx0, hxw⟩, hy0⟩, hyl⟩ := h
    have hy14 : y.toNat < 14 := by omega
    have hx6 : x.toNat < 6 := by omega
    rw [List.getD_eq_getElem (List.replicate 14 (List.replicate 6 createEmptyPuyo)) []
      (by simpa using hy14)]
    rw [List.getElem_replicate]
    rw [List.getD_eq_getElem (List.replicate 6 createEmptyPuyo) createEmptyPuyo
      (by simpa using hx6)]
    rw [List.getElem_replicate]

theorem isEmptyAt_createBoard (x y : Int) : isEmptyAt createBoard x y = true := by
  simp [isEmptyAt, getPuyoAt_createBoard, isEmpty, createEmptyPuyo, createPuyo]

/-! ### C1: the scoring formula -/

theorem getChainBonus_eq_spec (c : Nat) (hc : 1 ≤ c) : getChainBonus c = specChainBonus c := by
  unfold getChainBonus specChainBonus
  split_ifs <;> omega

theorem getConnectionBonus_eq_spec (s : Nat) (hs : 4 ≤ s) :
    getConnectionBonus s = specConnectionBonus s := by
  unfold getConnectionBonus specConnectionBonus
  split_ifs <;> omega

theorem getColorBonus_eq_spec (k : Nat) (h1 : 1 ≤ k) (h5 : k ≤ 5) :
    getColorBonus k = specColorBonus k := by
  interval_cases k <;> rfl

theorem foldl_add_bonus (f : Nat → Nat) (l : List Nat) :
    ∀ a : Nat, l.foldl (fun sum count => sum + f count) a = a + (l.map f).sum := by
  induction l with
  | nil => intro a; simp
  | cons hd tl ih =>
    intro a
    simp only [List.foldl_cons, List.map_cons, List.sum_cons, ih]
    omega

/-- C1: for chain index at least 1, group sizes all at least 4 and a
distinct-color count between 1 and 5, `calculateScore` equals
`puyoCount * 10 * max 1 (chainBonus + connectionBonus + colorBonus)` with the
three bonuses as the spec defines them. -/
theorem C1_calculateScore_formula (c puyoCount : Nat) (sizes : List Nat) (k : Nat)
    (hc : 1 ≤ c) (hs : ∀ s ∈ sizes, 4 ≤ s) (hk1 : 1 ≤ k) (hk5 : k ≤ 5) :
    calculateScore c puyoCount sizes k =
      puyoCount * 10 *
        max 1 (specChainBonus c + (sizes.map specConnectionBonus).sum + specColorBonus k) := by
  unfold calculateScore
  rw [foldl_add_bonus, getChainBonus_eq_spec c hc, getColorBonus_eq_spec k hk1 hk5]
  rw [List.map_congr_left (fun s hsm => getConnectionBonus_eq_spec s (hs s hsm))]
  rw [Nat.max_comm]
  simp

/-- C1 witness: the formula at a concrete input. -/
theorem C1_witness :
    calculateScore 2 7 [5] 2 =
      7 * 10 * max 1 (specChainBonus 2 + ([5].map specConnectionBonus).sum + specColorBonus 2) :=
  C1_calculateScore_formula 2 7 [5] 2 (by decide) (by decide) (by decide) (by decide)

/-! ### C2: the concrete two-chain scenarios -/

theorem runUntilSettled_succ (n : Nat) (g : Game) :
    runUntilSettled (n + 1) g =
      if g.state = GameState.PLAYING ∨ g.state = GameState.GAME_OVER then g
      else runUntilSettled n (updateGame g) := rfl

theorem runUntilSettled_stopped (n : Nat) (g : Game)
    (h : g.state = GameState.PLAYING ∨ g.state = GameState.GAME_OVER) :
    runUntilSettled n g = g := by
  cases n with
  | zero => rfl
  | succ n => rw [runUntilSettled_succ, if_pos h]

theorem runUntilSettled_add (a b : Nat) (g : Game) :
    runUntilSettled (a + b) g = runUntilSettled b (runUntilSettled a g) := by
  induction a generalizing g with
  | zero => rw [Nat.zero_add]; rfl
  | succ a ih =>
    by_cases hs : g.state = GameState.PLAYING ∨ g.state = GameState.GAME_OVER
    · rw [runUntilSettled_stopped (a + 1 + b) g hs, runUntilSettled_stopped (a + 1) g hs,
        runUntilSettled_stopped b g hs]
    · rw [show a + 1 + b = (a + b) + 1 from by omega, runUntilSettled_succ, if_neg hs, ih]
      rw [runUntilSettled_succ, if_neg hs]

set_option maxRecDepth 6000 in
theorem run920_c1 : runUntilSettled 12 g920 = g920s12 := by decide

set_option maxRecDepth 6000 in
theorem run920_c2 : runUntilSettled 12 g920s12 = g920s24 := by decide

set_option maxRecDepth 6000 in
theorem run920_c3 : runUntilSettled 12 g920s24 = g920s36 := by decide

set_option maxRecDepth 6000 in
theorem run920_c4 : runUntilSettled 12 g920s36 = g920s48 := by decide

set_option maxRecDepth 6000 in
theorem run920_c5 : runUntilSettled 12 g920s48 = g920s60 := by decide

set_option maxRecDepth 6000 in
theorem run920_c6 : runUntilSettled 12 g920s60 = (mkGameFinal 920) := by decide

theorem run920_total : runUntilSettled 200 g920 = mkGameFinal 920 := by
  rw [show (200 : Nat) = 12 + 188 from rfl, runUntilSettled_add, run920_c1]
  rw [show (188 : Nat) = 12 + 176 from rfl, runUntilSettled_add, run920_c2]
  rw [show (176 : Nat) = 12 + 164 from rfl, runUntilSettled_add, run920_c3]
  rw [show (164 : Nat) = 12 + 152 from rfl, runUntilSettled_add, run920_c4]
  rw [show (152 : Nat) = 12 + 140 from rfl, runUntilSettled_add, run920_c5]
  rw [show (140 : Nat) = 12 + 128 from rfl, runUntilSettled_add, run920_c6]
  exact runUntilSettled_stopped 128 (mkGameFinal 920) (Or.inl rfl)

set_option maxRecDepth 6000 in
theorem run1160_c1 : runUntilSettled 12 g1160 = g1160s12 := by decide

set_option maxRecDepth 6000 in
theorem run1160_c2 : runUntilSettled 12 g1160s12 = g1160s24 := by decide

set_option maxRecDepth 6000 in
theorem run1160_c3 : runUntilSettled 12 g1160s24 = g1160s36 := by decide

set_option maxRecDepth 6000 in
theorem run1160_c4 : runUntilSettled 12 g1160s36 = g1160s48 := by decide

set_option maxRecDepth 6000 in
theorem run1160_c5 : runUntilSettled 12 g1160s48 = g1160s60 := by decide

set_option maxRecDepth 6000 in
theorem run1160_c6 : runUntilSettled 12 g1160s60 = (mkGameFinal 1160) := by decide

theorem run1160_total : runUntilSettled 200 g1160 = mkGameFinal 1160 := by
  rw [show (200 : Nat) = 12 + 188 from rfl, runUntilSettled_add, run1160_c1]
  rw [show (188 : Nat) = 12 + 176 from rfl, runUntilSettled_add, run1160_c2]
  rw [show (176 : Nat) = 12 + 164 from rfl, runUntilSettled_add, run1160_c3]
  rw [show (164 : Nat) = 12 + 152 from rfl, runUntilSettled_add, run1160_c4]
  rw [show (152 : Nat) = 12 + 140 from rfl, runUntilSettled_add, run1160_c5]
  rw [show (140 : Nat) = 12 + 128 from rfl, runUntilSettled_add, run1160_c6]
  exact runUntilSettled_stopped 128 (mkGameFinal 1160) (Or.inl rfl)

set_option maxRecDepth 6000 in
theorem run1380_c1 : runUntilSettled 12 g1380 = g1380s12 := by decide

set_option maxRecDepth 6000 in
theorem run1380_c2 : runUntilSettled 12 g1380s12 = g1380s24 := by decide

set_option maxRecDepth 6000 in
theorem run1380_c3 : runUntilSettled 12 g1380s24 = g1380s36 := by decide

set_option maxRecDepth 6000 in
theorem run1380_c4 : runUntilSettled 12 g1380s36 = g1380s48 := by decide

set_option maxRecDepth 6000 in
theorem run1380_c5 : runUntilSettled 12 g1380s48 = g1380s60 := by decide

set_option maxRecDepth 6000 in
theorem run1380_c6 : runUntilSettled 12 g1380s60 = (mkGameFinal 1380) := by decide

theorem run1380_total : runUntilSettled 200 g1380 = mkGameFinal 1380 := by
  rw [show (200 : Nat) = 12 + 188 from rfl, runUntilSettled_add, run1380_c1]
  rw [show (188 : Nat) = 12 + 176 from rfl, runUntilSettled_add, run1380_c2]
  rw [show (176 : Nat) = 12 + 164 from rfl, runUntilSettled_add, run1380_c3]
  rw [show (164 : Nat) = 12 + 152 from rfl, runUntilSettled_add, run1380_c4]
  rw [show (152 : Nat) = 12 + 140 from rfl, runUntilSettled_add, run1380_c5]
  rw [show (140 : Nat) = 12 + 128 from rfl, runUntilSettled_add, run1380_c6]
  exact runUntilSettled_stopped 128 (mkGameFinal 1380) (Or.inl rfl)

set_option maxRecDepth 6000 in
theorem run1480_c1 : runUntilSettled 12 g1480 = g1480s12 := by decide

set_option maxRecDepth 6000 in
theorem run1480_c2 : runUntilSettled 12 g1480s12 = g1480s24 := by decide

set_option maxRecDepth 6000 in
theorem run1480_c3 : runUntilSettled 12 g1480s24 = g1480s36 := by decide

set_option maxRecDepth 6000 in
theorem run1480_c4 : runUntilSettled 12 g1480s36 = g1480s48 := by decide

set_option maxRecDepth 6000 in
theorem run1480_c5 : runUntilSettled 12 g1480s48 = g1480s60 := by decide

set_option maxRecDepth 6000 in
theorem run1480_c6 : runUntilSettled 12 g1480s60 = (mkGameFinal 1480) := by decide

theorem run1480_total : runUntilSettled 200 g1480 = mkGameFinal 1480 := by
  rw [show (200 : Nat) = 12 + 188 from rfl, runUntilSettled_add, run1480_c1]
  rw [show (188 : Nat) = 12 + 176 from rfl, runUntilSettled_add, run1480_c2]
  rw [show (176 : Nat) = 12 + 164 from rfl, runUntilSettled_add, run1480_c3]
  rw [show (164 : Nat) = 12 + 152 from rfl, runUntilSettled_add, run1480_c4]
  rw [show (152 : Nat) = 12 + 140 from rfl, runUntilSettled_add, run1480_c5]
  rw [show (140 : Nat) = 12 + 128 from rfl, runUntilSettled_add, run1480_c6]
  exact runUntilSettled_stopped 128 (mkGameFinal 1480) (Or.inl rfl)

set_option maxRecDepth 6000 in
/-- C2: on each of the four scenario boards, iterating `updateGame` from
`DROPPING` until the state becomes `PLAYING` or `GAME_OVER` raises the score
by exactly 920, 1160, 1380 and 1480 respectively, ends back in `PLAYING`,
and the first chain step scores 280 for the cleared 7-cell red group. -/
theorem C2_chain_scenario_scores :
    ((runUntilSettled 200 g920).score = g920.score + 920 ∧
      (runUntilSettled 200 g920).state = GameState.PLAYING ∧
      (checkAndMarkChainsForDeletion g920.board 0).2.2 = 280) ∧
    ((runUntilSettled 200 g1160).score = g1160.score + 1160 ∧
      (runUntilSettled 200 g1160).state = GameState.PLAYING ∧
      (checkAndMarkChainsForDeletion g1160.board 0).2.2 = 280) ∧
    ((runUntilSettled 200 g1380).score = g1380.score + 1380 ∧
      (runUntilSettled 200 g1380).state = GameState.PLAYING ∧
      (checkAndMarkChainsForDeletion g1380.board 0).2.2 = 280) ∧
    ((runUntilSettled 200 g1480).score = g1480.score + 1480 ∧
      (runUntilSettled 200 g1480).state = GameState.PLAYING ∧
      (checkAndMarkChainsForDeletion g1480.board 0).2.2 = 280) := by
  rw [run920_total, run1160_total, run1380_total, run1480_total]
  refine ⟨⟨?_, ?_, ?_⟩, ⟨?_, ?_, ?_⟩, ⟨?_, ?_, ?_⟩, ⟨?_, ?_, ?_⟩⟩ <;> decide

/-! ### C6: quick turn -/

theorem canExecuteQuickTurn_iff (pair : PuyoPair) (board : Board)
    (hin : isOutOfBounds board pair.position.x pair.position.y = false) :
    canExecuteQuickTurn pair board = true ↔ SpecQuickTurnCond pair board := by
  simp only [isOutOfBounds, Bool.or_eq_false_iff, decide_eq_false_iff_not] at hin
  obtain ⟨⟨⟨hx0, hxw⟩, hy0⟩, hyl⟩ := hin
  unfold canExecuteQuickTurn SpecQuickTurnCond SpecBlocked
  have hL : isOutOfBounds board (pair.position.x - 1) pair.position.y = true ↔
      pair.position.x - 1 < 0 := by
    unfold isOutOfBounds
    simp only [Bool.or_eq_true, decide_eq_true_eq]
    constructor
    · rintro (((h | h) | h) | h)
      · exact h
      · exact absurd h (by unfold BOARD_WIDTH at hxw ⊢; omega)
      · exact absurd h hy0
      · exact absurd h hyl
    · intro h; exact Or.inl (Or.inl (Or.inl h))
  have hR : isOutOfBounds board (pair.position.x + 1) pair.position.y = true ↔
      BOARD_WIDTH ≤ pair.position.x + 1 := by
    unfold isOutOfBounds
    simp only [Bool.or_eq_true, decide_eq_true_eq]
    constructor
    · rintro (((h | h) | h) | h)
      · exact absurd h (by omega)
      · exact h
      · exact absurd h hy0
      · exact absurd h hyl
    · intro h; exact Or.inl (Or.inl (Or.inr h))
  constructor
  · intro h
    split at h
    · exact absurd h (by simp)
    · rename_i hrot
      simp only [Bool.and_eq_true, Bool.not_eq_true', decide_eq_true_eq, ne_eq,
        Bool.or_eq_true, decide_eq_false_iff_not, not_and, not_not] at hrot h
      refine ⟨?_, ?_, ?_⟩
      · by_cases hu : pair.rotation = RotationState.UP
        · exact Or.inl hu
        · exact Or.inr (hrot hu)
      · rcases h.1 with h1 | h1
        · exact Or.inl (hL.mpr h1)
        · exact Or.inr (by simpa using h1)
      · rcases h.2 with h2 | h2
        · exact Or.inl (hR.mpr h2)
        · exact Or.inr (by simpa using h2)
  · rintro ⟨hrot, hl, hr⟩
    split
    · rename_i hcon
      simp only [Bool.and_eq_true, Bool.not_eq_true', decide_eq_true_eq, ne_eq,
        decide_eq_false_iff_not] at hcon
      rcases hrot with h | h
      · exact absurd h hcon.1
      · exact absurd h hcon.2
    · simp only [Bool.and_eq_true, Bool.or_eq_true, decide_eq_true_eq,
        Bool.not_eq_true']
      constructor
      · rcases hl with h | h
        · exact Or.inl (hL.mp h)
        · exact Or.inr h
      · rcases hr with h | h
        · exact Or.inl (hR.mp h)
        · exact Or.inr h

/-- C6: for a pair whose anchor is on the board, `executeQuickTurn` succeeds
exactly when the rotation is UP or DOWN and both horizontal neighbors of the
anchor are blocked (off-board or occupied); on success the new anchor is the
old second-cell position and the rotation flips UP and DOWN, and otherwise it
fails with an `InvalidMove` error, returning no modified pair. -/
theorem C6_quick_turn (pair : PuyoPair) (board : Board)
    (hin : isOutOfBounds board pair.position.x pair.position.y = false) :
    (SpecQuickTurnCond pair board →
      executeQuickTurn pair board =
        Except.ok { pair with
          position := getSecondPosition pair,
          rotation := if pair.rotation = RotationState.UP then RotationState.DOWN
            else RotationState.UP }) ∧
    (¬SpecQuickTurnCond pair board →
      executeQuickTurn pair board =
        Except.error ⟨PuyoPairErrorType.InvalidMove, "Cannot execute quick turn"⟩) := by
  constructor
  · intro h
    unfold executeQuickTurn
    rw [if_pos ((canExecuteQuickTurn_iff pair board hin).mpr h)]
  · intro h
    unfold executeQuickTurn
    rw [if_neg (fun hc => h ((canExecuteQuickTurn_iff pair board hin).mp hc))]

/-- C6 witness: a quick turn at the left wall of a one-column well. -/
theorem C6_witness :
    let wellBoard := mkTestBoard ["......", "......", "......", "......", "......", "......",
      "......", "......", "......", "......", "......", ".R....", ".R....", ".R...."]
    let pair := createPuyoPair (createPuyo PuyoColor.BLUE) (createPuyo PuyoColor.YELLOW)
      0 12 RotationState.UP
    executeQuickTurn pair wellBoard =
      Except.ok { pair with position := ⟨0, 11⟩, rotation := RotationState.DOWN } :=
  (C6_quick_turn _ _ (by decide)).1
    (by refine ⟨Or.inl rfl, Or.inl (by decide), Or.inr (by decide)⟩)

/-! ### C8: rejected commands in non-playing states -/

/-- C8: in any state other than `PLAYING` (`DROPPING`, `CHECKING_CHAINS`,
`FLASHING_PUYOS`, `GAME_OVER`, `IDLE`), or whenever `currentPair` is null,
every player command returns a typed `InvalidState` error; being pure
functions of the snapshot, the rejected commands return nothing but the
error, so the prior snapshot is left fully intact and nothing is queued. -/
theorem C8_invalid_state_rejection (g : Game)
    (h : g.state = GameState.DROPPING ∨ g.state = GameState.CHECKING_CHAINS ∨
      g.state = GameState.FLASHING_PUYOS ∨ g.state = GameState.GAME_OVER ∨
      g.state = GameState.IDLE ∨ g.currentPair = none) :
    moveLeftInGame g =
      Except.error ⟨GameErrorType.InvalidState, "Cannot move left in current state"⟩ ∧
    moveRightInGame g =
      Except.error ⟨GameErrorType.InvalidState, "Cannot move right in current state"⟩ ∧
    rotateClockwiseInGame g =
      Except.error ⟨GameErrorType.InvalidState, "Cannot rotate in current state"⟩ ∧
    rotateCounterClockwiseInGame g =
      Except.error ⟨GameErrorType.InvalidState, "Cannot rotate in current state"⟩ ∧
    executeQuickTurnInGame g =
      Except.error ⟨GameErrorType.InvalidState, "Cannot execute quick turn in current state"⟩ ∧
    hardDrop g =
      Except.error ⟨GameErrorType.InvalidState, "Cannot hard drop in current state"⟩ := by
  obtain ⟨b, cp, np, st, sc, cc, ft, ps, mc⟩ := g
  cases st <;> cases cp <;>
    simp_all [moveLeftInGame, moveRightInGame, rotateClockwiseInGame,
      rotateCounterClockwiseInGame, executeQuickTurnInGame, hardDrop]

/-- C8 witness: all six commands are rejected in the idle game. -/
theorem C8_witness :
    moveLeftInGame gIdle =
      Except.error ⟨GameErrorType.InvalidState, "Cannot move left in current state"⟩ ∧
    moveRightInGame gIdle =
      Except.error ⟨GameErrorType.InvalidState, "Cannot move right in current state"⟩ ∧
    rotateClockwiseInGame gIdle =
      Except.error ⟨GameErrorType.InvalidState, "Cannot rotate in current state"⟩ ∧
    rotateCounterClockwiseInGame gIdle =
      Except.error ⟨GameErrorType.InvalidState, "Cannot rotate in current state"⟩ ∧
    executeQuickTurnInGame gIdle =
      Except.error ⟨GameErrorType.InvalidState, "Cannot execute quick turn in current state"⟩ ∧
    hardDrop gIdle =
      Except.error ⟨GameErrorType.InvalidState, "Cannot hard drop in current state"⟩ :=
  C8_invalid_state_rejection gIdle (by decide)

/-! ### C9: score monotonicity -/

theorem spawnNextPair_score (g : Game) : (spawnNextPair g).score = g.score := by
  unfold spawnNextPair
  dsimp only
  split <;> rfl

theorem updateGame_score_mono (g : Game) : g.score ≤ (updateGame g).score := by
  unfold updateGame
  cases hst : g.state
  · exact Nat.le_refl _
  · exact Nat.le_refl _
  · dsimp only
    split <;> exact Nat.le_refl _
  · dsimp only
    split
    · exact Nat.le_add_right _ _
    · split
      · simp only [spawnNextPair_score]
        exact Nat.le_refl _
      · simp only [spawnNextPair_score]
        exact Nat.le_refl _
  · dsimp only
    split <;> exact Nat.le_refl _
  · exact Nat.le_refl _

theorem moveLeftInGame_ok_score (g g' : Game) (h : moveLeftInGame g = Except.ok g') :
    g'.score = g.score := by
  unfold moveLeftInGame at h
  split at h
  · split at h <;> { injection h with h; subst h; rfl }
  · exact absurd h (by simp)

theorem moveRightInGame_ok_score (g g' : Game) (h : moveRightInGame g = Except.ok g') :
    g'.score = g.score := by
  unfold moveRightInGame at h
  split at h
  · split at h <;> { injection h with h; subst h; rfl }
  · exact absurd h (by simp)

theorem moveDownInGame_ok_score (g g' : Game) (h : moveDownInGame g = Except.ok g') :
    g'.score = g.score := by
  unfold moveDownInGame at h
  split at h
  · split at h
    · injection h with h; subst h; rfl
    · split at h
      · exact absurd h (by simp)
      · injection h with h; subst h; rfl
  · exact absurd h (by simp)

theorem rotateClockwiseInGame_ok_score (g g' : Game)
    (h : rotateClockwiseInGame g = Except.ok g') : g'.score = g.score := by
  unfold rotateClockwiseInGame at h
  split at h
  · split at h
    · exact absurd h (by simp)
    · injection h with h; subst h; rfl
  · exact absurd h (by simp)

theorem rotateCounterClockwiseInGame_ok_score (g g' : Game)
    (h : rotateCounterClockwiseInGame g = Except.ok g') : g'.score = g.score := by
  unfold rotateCounterClockwiseInGame at h
  split at h
  · split at h
    · exact absurd h (by simp)
    · injection h with h; subst h; rfl
  · exact absurd h (by simp)

theorem executeQuickTurnInGame_ok_score (g g' : Game)
    (h : executeQuickTurnInGame g = Except.ok g') : g'.score = g.score := by
  unfold executeQuickTurnInGame at h
  split at h
  · split at h
    · exact absurd h (by simp)
    · injection h with h; subst h; rfl
  · exact absurd h (by simp)

theorem hardDrop_ok_score (g g' : Game) (h : hardDrop g = Except.ok g') :
    g'.score = g.score := by
  unfold hardDrop at h
  dsimp only at h
  split at h
  · split at h
    · exact absurd h (by simp)
    · injection h with h; subst h; rfl
  · exact absurd h (by simp)

/-- C9: within one game the score is monotonically non-decreasing: every
`updateGame` tick and every accepted player command yields a game whose score
is at least the previous score. -/
theorem C9_score_monotone (g : Game) :
    g.score ≤ (updateGame g).score ∧
      ∀ (cmd : GameCmd) (g' : Game), applyCommand cmd g = Except.ok g' →
        g.score ≤ g'.score := by
  refine ⟨updateGame_score_mono g, ?_⟩
  intro cmd g' h
  cases cmd
  · exact Nat.le_of_eq (moveLeftInGame_ok_score g g' h).symm
  · exact Nat.le_of_eq (moveRightInGame_ok_score g g' h).symm
  · exact Nat.le_of_eq (moveDownInGame_ok_score g g' h).symm
  · exact Nat.le_of_eq (rotateClockwiseInGame_ok_score g g' h).symm
  · exact Nat.le_of_eq (rotateCounterClockwiseInGame_ok_score g g' h).symm
  · exact Nat.le_of_eq (executeQuickTurnInGame_ok_score g g' h).symm
  · exact Nat.le_of_eq (hardDrop_ok_score g g' h).symm

/-- C9 witness: a concrete accepted command (moving left in a playing game)
does not decrease the score. -/
theorem C9_witness :
    gPlaying.score ≤
      (Game.mk gPlaying.board
        (some (createPuyoPair (createPuyo PuyoColor.RED) (createPuyo PuyoColor.BLUE) 1 2
          RotationState.UP))
        gPlaying.nextPair GameState.PLAYING 0 0 0 testSeq 1).score :=
  (C9_score_monotone gPlaying).2 GameCmd.moveLeftCmd _ (by rfl)

/-! ### C4: the rotation round trip -/

theorem rotPrev_rotNext (r : RotationState) : rotPrev (rotNext r) = r := by
  cases r <;> rfl

theorem calcRotPos_eq (p q : PuyoPair) (h : p.position = q.position) (r : RotationState) :
    calculateRotationPosition p r = calculateRotationPosition q r := by
  cases r <;> simp [calculateRotationPosition, h]

theorem calcRotPos_self (pair : PuyoPair) :
    calculateRotationPosition pair pair.rotation = getSecondPosition pair := by
  unfold calculateRotationPosition getSecondPosition
  cases pair.rotation <;> rfl

/-- C4 counterexample: a validly placed pair at the right wall in rotation UP
wall-kicks when rotated clockwise; rotating counter-clockwise then succeeds
in place, so the round trip returns the original rotation but a different
anchor position, refuting the round-trip law as stated. -/
theorem C4_counterexample :
    isOutOfBounds createBoard 5 5 = false ∧ isOutOfBounds createBoard 5 4 = false ∧
    isEmptyAt createBoard 5 5 = true ∧ isEmptyAt createBoard 5 4 = true ∧
    rotateClockwise pairX5 createBoard =
      Except.ok { pairX5 with position := ⟨4, 5⟩, rotation := RotationState.RIGHT } ∧
    rotateCounterClockwise { pairX5 with position := ⟨4, 5⟩, rotation := RotationState.RIGHT }
        createBoard =
      Except.ok { pairX5 with position := ⟨4, 5⟩, rotation := RotationState.UP } ∧
    ({ pairX5 with position := ⟨4, 5⟩, rotation := RotationState.UP } : PuyoPair).rotation =
      pairX5.rotation ∧
    ({ pairX5 with position := ⟨4, 5⟩, rotation := RotationState.UP } : PuyoPair).position ≠
      pairX5.position :=
  ⟨rfl, rfl, rfl, rfl, rfl, rfl, rfl, by decide⟩

/-- C4 amended: on an empty board, for every validly placed pair whose
clockwise-rotation target cell is also on the board (so that no wall kick is
needed), rotating clockwise succeeds in place and rotating counter-clockwise
then restores the original rotation and anchor position exactly. -/
theorem C4_amended (pair : PuyoPair)
    (_h1 : isOutOfBounds createBoard pair.position.x pair.position.y = false)
    (h2 : isOutOfBounds createBoard (getSecondPosition pair).x (getSecondPosition pair).y = false)
    (h3 : isOutOfBounds createBoard (calculateRotationPosition pair (rotNext pair.rotation)).x
      (calculateRotationPosition pair (rotNext pair.rotation)).y = false) :
    rotateClockwise pair createBoard = Except.ok { pair with rotation := rotNext pair.rotation } ∧
    rotateCounterClockwise { pair with rotation := rotNext pair.rotation } createBoard =
      Except.ok pair := by
  constructor
  · unfold rotateClockwise
    dsimp only
    rw [if_pos (by rw [h3, isEmptyAt_createBoard]; rfl)]
  · unfold rotateCounterClockwise
    dsimp only
    rw [rotPrev_rotNext,
      calcRotPos_eq { pair with rotation := rotNext pair.rotation } pair rfl,
      calcRotPos_self]
    rw [if_pos (by rw [h2, isEmptyAt_createBoard]; rfl)]

/-- C4 witness: the amended round trip at a concrete interior position. -/
theorem C4_witness :
    rotateClockwise (createPuyoPair (createPuyo PuyoColor.RED) (createPuyo PuyoColor.BLUE)
        2 5 RotationState.UP) createBoard =
      Except.ok { createPuyoPair (createPuyo PuyoColor.RED) (createPuyo PuyoColor.BLUE)
        2 5 RotationState.UP with rotation := rotNext RotationState.UP } ∧
    rotateCounterClockwise { createPuyoPair (createPuyo PuyoColor.RED) (createPuyo PuyoColor.BLUE)
        2 5 RotationState.UP with rotation := rotNext RotationState.UP } createBoard =
      Except.ok (createPuyoPair (createPuyo PuyoColor.RED) (createPuyo PuyoColor.BLUE)
        2 5 RotationState.UP) :=
  C4_amended _ (by decide) (by decide) (by decide)

/-! ### Board get and set lemmas -/

theorem boardWF_createBoard : BoardWF createBoard := by
  constructor
  · rfl
  · intro row hrow
    have : row = List.replicate 6 createEmptyPuyo := by
      have hb : createBoard.grid = List.replicate 14 (List.replicate 6 createEmptyPuyo) := rfl
      rw [hb] at hrow
      exact List.eq_of_mem_replicate hrow
    rw [this]
    rfl

theorem isOutOfBounds_eq_decide (b : Board) (x y : Int) :
    isOutOfBounds b x y =
      decide (x < 0 ∨ 6 ≤ x ∨ y < 0 ∨ (b.grid.length : Int) ≤ y) := by
  unfold isOutOfBounds BOARD_WIDTH
  by_cases h1 : x < 0 <;> by_cases h2 : (6:Int) ≤ x <;> by_cases h3 : y < 0 <;>
    by_cases h4 : (b.grid.length : Int) ≤ y <;>
    simp [h1, h2, h3, h4]

theorem isOutOfBounds_false_iff (b : Board) (x y : Int) :
    isOutOfBounds b x y = false ↔
      0 ≤ x ∧ x < 6 ∧ 0 ≤ y ∧ y < (b.grid.length : Int) := by
  rw [isOutOfBounds_eq_decide]
  simp only [decide_eq_false_iff_not, not_or, not_lt, not_le]

theorem setPuyoAt_inBounds (b : Board) (x y : Int) (p : Puyo)
    (h : isOutOfBounds b x y = false) :
    setPuyoAt b x y p =
      Except.ok ⟨b.grid.set y.toNat ((b.grid.getD y.toNat []).set x.toNat p)⟩ := by
  unfold setPuyoAt
  rw [h]
  rfl

theorem grid_length_set (b : Board) (x y : Int) (p : Puyo) :
    (Board.mk (b.grid.set y.toNat ((b.grid.getD y.toNat []).set x.toNat p))).grid.length =
      b.grid.length := by
  simp

theorem boardWF_set (b : Board) (x y : Int) (p : Puyo) (hwf : BoardWF b) :
    BoardWF ⟨b.grid.set y.toNat ((b.grid.getD y.toNat []).set x.toNat p)⟩ := by
  obtain ⟨hlen, hrows⟩ := hwf
  constructor
  · simp [hlen]
  · intro row hrow
    by_cases hy : y.toNat < b.grid.length
    · rcases List.mem_or_eq_of_mem_set hrow with h | h
      · exact hrows row h
      · subst h
        rw [List.length_set]
        rw [List.getD_eq_getElem b.grid [] hy]
        exact hrows _ (List.getElem_mem hy)
    · rw [List.set_eq_of_length_le (Nat.le_of_not_lt hy)] at hrow
      exact hrows row hrow

theorem getPuyoAt_set_same (b : Board) (x y : Int) (p : Puyo) (hwf : BoardWF b)
    (h : isOutOfBounds b x y = false) :
    getPuyoAt ⟨b.grid.set y.toNat ((b.grid.getD y.toNat []).set x.toNat p)⟩ x y = p := by
  obtain ⟨hx0, hx6, hy0, hyl⟩ := (isOutOfBounds_false_iff b x y).mp h
  obtain ⟨hlen, hrows⟩ := hwf
  have hyn : y.toNat < b.grid.length := by omega
  have hxn : x.toNat < 6 := by omega
  have hrowlen : (b.grid.getD y.toNat []).length = 6 := by
    rw [List.getD_eq_getElem b.grid [] hyn]
    exact hrows _ (List.getElem_mem hyn)
  unfold getPuyoAt
  rw [if_neg]
  · rw [List.getD_eq_getElem _ [] (by simpa using hyn)]
    rw [List.getElem_set_self (by simpa using hyn)]
    have hx2 : x.toNat < ((b.grid.getD y.toNat []).set x.toNat p).length := by
      rw [List.length_set, hrowlen]
      exact hxn
    rw [List.getD_eq_getElem _ _ hx2]
    rw [List.getElem_set_self hx2]
  · intro hc
    rw [isOutOfBounds_eq_decide] at hc
    simp only [List.length_set, decide_eq_true_eq] at hc
    omega

theorem getPuyoAt_set_other (b : Board) (x y x' y' : Int) (p : Puyo) (hwf : BoardWF b)
    (hset : isOutOfBounds b x y = false) (hne : ¬(x' = x ∧ y' = y)) :
    getPuyoAt ⟨b.grid.set y.toNat ((b.grid.getD y.toNat []).set x.toNat p)⟩ x' y' =
      getPuyoAt b x' y' := by
  obtain ⟨hsx0, hsx6, hsy0, hsyl⟩ := (isOutOfBounds_false_iff b x y).mp hset
  obtain ⟨hlen, hrows⟩ := hwf
  have hoob : isOutOfBounds ⟨b.grid.set y.toNat ((b.grid.getD y.toNat []).set x.toNat p)⟩ x' y' =
      isOutOfBounds b x' y' := by
    rw [isOutOfBounds_eq_decide, isOutOfBounds_eq_decide]
    simp
  unfold getPuyoAt
  rw [hoob]
  split
  · rfl
  · rename_i hin
    rw [Bool.not_eq_true] at hin
    obtain ⟨hx0, hx6, hy0, hyl⟩ := (isOutOfBounds_false_iff b x' y').mp hin
    show ((b.grid.set y.toNat ((b.grid.getD y.toNat []).set x.toNat p)).getD y'.toNat
        []).getD x'.toNat createEmptyPuyo = _
    by_cases hyy : y' = y
    · subst hyy
      have hxx : x'.toNat ≠ x.toNat := by
        intro hc
        exact hne ⟨by omega, rfl⟩
      rw [List.getD_eq_getElem?_getD (b.grid.set y'.toNat _),
        List.getElem?_set_self (by omega), List.getD_eq_getElem b.grid [] (by omega)]
      simp only [Option.getD_some]
      rw [List.getD_eq_getElem?_getD, List.getD_eq_getElem?_getD,
        List.getElem?_set_ne (fun hc => hxx hc.symm)]
    · have hyny : y'.toNat ≠ y.toNat := by omega
      rw [List.getD_eq_getElem?_getD (b.grid.set y.toNat _),
        List.getElem?_set_ne (fun hc => hyny hc.symm),
        List.getD_eq_getElem?_getD b.grid]

/-! ### C5: hard drop -/

theorem moveDown_createBoard_down (pair : PuyoPair) (hrot : pair.rotation = RotationState.DOWN)
    (hy : pair.position.y ≤ 11) :
    moveDown pair createBoard =
      Except.ok { pair with position := ⟨pair.position.x, pair.position.y + 1⟩ } := by
  have hsec : getSecondPosition pair = ⟨pair.position.x, pair.position.y + 1⟩ := by
    unfold getSecondPosition
    rw [hrot]
  unfold moveDown
  dsimp only
  rw [hsec]
  dsimp only
  split
  · rename_i hcond
    exfalso
    simp only [isEmptyAt_createBoard, Bool.not_true, Bool.or_false, Bool.or_eq_true,
      decide_eq_true_eq, BOARD_HEIGHT, HIDDEN_ROWS] at hcond
    omega
  · rfl

theorem moveDown_createBoard_down_stop (pair : PuyoPair)
    (hrot : pair.rotation = RotationState.DOWN) (hy : pair.position.y = 12) :
    moveDown pair createBoard =
      Except.error ⟨PuyoPairErrorType.InvalidMove, "Cannot move down"⟩ := by
  have hsec : getSecondPosition pair = ⟨pair.position.x, pair.position.y + 1⟩ := by
    unfold getSecondPosition
    rw [hrot]
  unfold moveDown
  dsimp only
  rw [hsec]
  dsimp only
  split
  · rfl
  · rename_i hcond
    exfalso
    apply hcond
    simp only [Bool.or_eq_true, decide_eq_true_eq, BOARD_HEIGHT, HIDDEN_ROWS]
    left
    left
    right
    omega

theorem hardDropLoop_down_createBoard (n : Nat) (fuel : Nat) (pair : PuyoPair)
    (hrot : pair.rotation = RotationState.DOWN) (hy : pair.position.y = 12 - (n : Int))
    (hn : (n : Int) ≤ 12) (hfuel : n < fuel) :
    hardDropLoop fuel pair createBoard = { pair with position := ⟨pair.position.x, 12⟩ } := by
  induction n generalizing fuel pair with
  | zero =>
    cases fuel with
    | zero => omega
    | succ f =>
      rw [hardDropLoop, moveDown_createBoard_down_stop pair hrot (by omega)]
      have hpos : pair.position = Position.mk pair.position.x 12 := by
        cases hp : pair.position
        rw [hp] at hy
        simp only [Nat.cast_zero, sub_zero] at hy
        simp only at hy ⊢
        rw [hy]
      cases pair with
      | mk m s pos r =>
        simp only at hpos ⊢
        rw [hpos]
  | succ n ih =>
    cases fuel with
    | zero => omega
    | succ f =>
      rw [hardDropLoop, moveDown_createBoard_down pair hrot (by push_cast at hy; omega)]
      dsimp only
      rw [ih f { pair with position := ⟨pair.position.x, pair.position.y + 1⟩ } hrot
        (by simp only; push_cast at hy ⊢; omega) (by omega) (by omega)]

/-- C5 counterexample: hard-dropping a playing pair in rotation RIGHT over an
empty board lands both Puyos on the bottom row in adjacent columns, so the
main Puyo is not one row above the second Puyo, refuting the claim for
non-DOWN rotations. -/
theorem C5_counterexample :
    (hardDropLoop 16 (createPuyoPair (createPuyo PuyoColor.RED) (createPuyo PuyoColor.BLUE)
        2 2 RotationState.RIGHT) createBoard).position = ⟨2, 13⟩ ∧
    getSecondPosition (hardDropLoop 16 (createPuyoPair (createPuyo PuyoColor.RED)
        (createPuyo PuyoColor.BLUE) 2 2 RotationState.RIGHT) createBoard) = ⟨3, 13⟩ ∧
    ¬((hardDropLoop 16 (createPuyoPair (createPuyo PuyoColor.RED) (createPuyo PuyoColor.BLUE)
          2 2 RotationState.RIGHT) createBoard).position.y + 1 =
        (getSecondPosition (hardDropLoop 16 (createPuyoPair (createPuyo PuyoColor.RED)
          (createPuyo PuyoColor.BLUE) 2 2 RotationState.RIGHT) createBoard)).y) ∧
    (hardDrop gPlayingRight).map
        (fun g' => (getPuyoAt g'.board 2 13, getPuyoAt g'.board 3 13, g'.state,
          g'.currentPair)) =
      Except.ok (createPuyo PuyoColor.RED, createPuyo PuyoColor.BLUE,
        GameState.DROPPING, none) := by
  refine ⟨by decide, by decide, by decide, by rfl⟩

/-- C5 amended: for every playing game over an empty board whose current pair
is validly placed in rotation DOWN, `hardDrop` succeeds, drops the pair to
the lowest position reachable by repeated `moveDown` (anchor row 12, the
bottom-most reachable), writes `mainPuyo` at row 12 one row above
`secondPuyo` at row 13 in the same column, sets `currentPair` to null and
transitions the state to `DROPPING` without changing the score. -/
theorem C5_amended (g : Game) (pair : PuyoPair)
    (hst : g.state = GameState.PLAYING)
    (hcp : g.currentPair = some pair)
    (hb : g.board = createBoard)
    (hrot : pair.rotation = RotationState.DOWN)
    (hx0 : 0 ≤ pair.position.x) (hx6 : pair.position.x < 6)
    (hy0 : 0 ≤ pair.position.y) (hy : pair.position.y ≤ 12) :
    ∃ g', hardDrop g = Except.ok g' ∧
      g'.currentPair = none ∧ g'.state = GameState.DROPPING ∧ g'.score = g.score ∧
      hardDropLoop ((BOARD_HEIGHT + HIDDEN_ROWS).toNat + 2) pair g.board =
        { pair with position := ⟨pair.position.x, 12⟩ } ∧
      getPuyoAt g'.board pair.position.x 12 = pair.mainPuyo ∧
      getPuyoAt g'.board pair.position.x 13 = pair.secondPuyo := by
  have hL : (createBoard.grid.length : Int) = 14 := rfl
  have hdrop : hardDropLoop ((BOARD_HEIGHT + HIDDEN_ROWS).toNat + 2) pair createBoard =
      { pair with position := ⟨pair.position.x, 12⟩ } := by
    refine hardDropLoop_down_createBoard (12 - pair.position.y).toNat _ pair hrot ?_ ?_ ?_
    · omega
    · omega
    · show (12 - pair.position.y).toNat < 16
      omega
  have hoob12 : isOutOfBounds createBoard pair.position.x 12 = false := by
    rw [isOutOfBounds_false_iff]
    refine ⟨hx0, hx6, by omega, by rw [hL]; omega⟩
  have hwf1 : BoardWF ⟨createBoard.grid.set (12 : Int).toNat
      ((createBoard.grid.getD (12 : Int).toNat []).set pair.position.x.toNat
        pair.mainPuyo)⟩ :=
    boardWF_set createBoard pair.position.x 12 pair.mainPuyo boardWF_createBoard
  have hoob13 : isOutOfBounds ⟨createBoard.grid.set (12 : Int).toNat
      ((createBoard.grid.getD (12 : Int).toNat []).set pair.position.x.toNat
        pair.mainPuyo)⟩ pair.position.x 13 = false := by
    rw [isOutOfBounds_false_iff]
    have h14 := hwf1.1
    refine ⟨hx0, hx6, by omega, by omega⟩
  obtain ⟨gb, gcp, gnp, gst, gsc, gcc, gft, gps, gmc⟩ := g
  simp only at hst hcp hb
  subst hst
  subst hcp
  subst hb
  unfold hardDrop
  dsimp only
  rw [hdrop]
  unfold placeOnBoard
  have hmainpos : getMainPosition { pair with position := ⟨pair.position.x, 12⟩ } =
      ⟨pair.position.x, 12⟩ := rfl
  have hsecpos : getSecondPosition { pair with position := ⟨pair.position.x, 12⟩ } =
      ⟨pair.position.x, 13⟩ := by
    unfold getSecondPosition
    rw [show ({ pair with position := ⟨pair.position.x, 12⟩ } : PuyoPair).rotation =
      RotationState.DOWN from hrot]
    rfl
  rw [hmainpos, hsecpos]
  dsimp only
  rw [setPuyoAt_inBounds createBoard pair.position.x 12 pair.mainPuyo hoob12]
  dsimp only
  rw [setPuyoAt_inBounds _ pair.position.x 13 pair.secondPuyo hoob13]
  dsimp only
  refine ⟨_, rfl, rfl, rfl, rfl, rfl, ?_, ?_⟩
  · rw [getPuyoAt_set_other _ pair.position.x 13 pair.position.x 12 pair.secondPuyo hwf1
      hoob13 (by intro hc; omega)]
    exact getPuyoAt_set_same createBoard pair.position.x 12 pair.mainPuyo
      boardWF_createBoard hoob12
  · exact getPuyoAt_set_same _ pair.position.x 13 pair.secondPuyo hwf1 hoob13

/-- C5 witness: the amended hard drop at the spawn cell in rotation DOWN. -/
theorem C5_witness :
    ∃ g', hardDrop gPlayingDown = Except.ok g' ∧
      g'.currentPair = none ∧ g'.state = GameState.DROPPING ∧ g'.score = gPlayingDown.score ∧
      hardDropLoop ((BOARD_HEIGHT + HIDDEN_ROWS).toNat + 2)
          (createPuyoPair (createPuyo PuyoColor.RED) (createPuyo PuyoColor.BLUE) 2 2
            RotationState.DOWN) gPlayingDown.board =
        { createPuyoPair (createPuyo PuyoColor.RED) (createPuyo PuyoColor.BLUE) 2 2
            RotationState.DOWN with position := ⟨2, 12⟩ } ∧
      getPuyoAt g'.board 2 12 = createPuyo PuyoColor.RED ∧
      getPuyoAt g'.board 2 13 = createPuyo PuyoColor.BLUE :=
  C5_amended gPlayingDown
    (createPuyoPair (createPuyo PuyoColor.RED) (createPuyo PuyoColor.BLUE) 2 2
      RotationState.DOWN)
    (by rfl) (by rfl) (by rfl) (by rfl) (by decide) (by decide) (by decide) (by decide)

/-! ### C7: sequence determinism -/

theorem loadSequences_some (T lines : List String) :
    loadSequences (Option.some T) lines = Option.some T := rfl

theorem applyLoads_some (T : List String) (loads : List (List String)) :
    applyLoads (Option.some T) loads = Option.some T := by
  induction loads with
  | nil => rfl
  | cons l ls ih =>
    show applyLoads (loadSequences (Option.some T) l) ls = _
    rw [loadSequences_some]
    exact ih

/-- C7: once the backing table has loaded (the cache is write-once: later
load completions never change it), `createPuyoSeq` returns the same sequence
on every call of one process lifetime, and when the table lines have 256
characters the sequence has 256 colors. -/
theorem C7_createPuyoSeq_deterministic (T : List String) (hT : T ≠ [])
    (hlen : ∀ line ∈ T, line.length = 256) (loads : List (List String)) (seed : Nat) :
    ∃ s : PuyoSeq, createPuyoSeq (Option.some T) seed = Except.ok s ∧
      createPuyoSeq (applyLoads (Option.some T) loads) seed = Except.ok s ∧
      s.seq.length = 256 := by
  refine ⟨⟨((T.getD (seed % T.length) "").toList).map decodeSeqChar⟩, rfl, ?_, ?_⟩
  · rw [applyLoads_some]
    rfl
  · show (((T.getD (seed % T.length) "").toList).map decodeSeqChar).length = 256
    rw [List.length_map]
    have hlt : seed % T.length < T.length :=
      Nat.mod_lt _ (List.length_pos.mpr hT)
    rw [List.getD_eq_getElem T "" hlt]
    exact hlen _ (List.getElem_mem hlt)

set_option maxRecDepth 4000 in
/-- C7 witness: determinism over a concrete 256-character table. -/
theorem C7_witness :
    ∃ s : PuyoSeq, createPuyoSeq (Option.some [seqLine256]) 0 = Except.ok s ∧
      createPuyoSeq (applyLoads (Option.some [seqLine256]) [["x"], []]) 0 = Except.ok s ∧
      s.seq.length = 256 :=
  C7_createPuyoSeq_deterministic [seqLine256] (by simp)
    (by
      intro line hline
      rw [List.mem_singleton] at hline
      subst hline
      decide)
    [["x"], []] 0

/-! ### C10: gravity is a relocation -/

theorem filter_set_set {α : Type} (p : α → Bool) (d : α) :
    ∀ (L : List α) (i : Nat), i + 1 < L.length → ∀ (e : α), p e = false →
      p (L.getD (i + 1) d) = false →
      ((L.set i e).set (i + 1) (L.getD i d)).filter p = L.filter p := by
  intro L
  induction L with
  | nil => intro i hi; simp at hi
  | cons a rest ih =>
    intro i hi e hpe hpi1
    cases i with
    | zero =>
      cases rest with
      | nil => simp at hi
      | cons b rest2 =>
        simp only [List.getD_cons_zero, List.getD_cons_succ] at hpi1 ⊢
        show List.filter p (((a :: b :: rest2).set 0 e).set 1 a) = List.filter p (a :: b :: rest2)
        simp only [List.set_cons_zero, List.set_cons_succ]
        simp only [List.filter_cons]
        rw [hpe, hpi1]
        cases hpa : p a <;> simp
    | succ j =>
      simp only [List.length_cons, Nat.add_lt_add_iff_right] at hi
      simp only [List.getD_cons_succ] at hpi1 ⊢
      show List.filter p (((a :: rest).set (j + 1) e).set (j + 2) (rest.getD j d)) =
        List.filter p (a :: rest)
      simp only [List.set_cons_succ]
      simp only [List.filter_cons]
      rw [ih j (by omega) e hpe hpi1]

theorem column_length (b : Board) (x : Int) : (column b x).length = 14 := by
  unfold column
  rw [List.length_map, List.length_range]

theorem column_getElem (b : Board) (x : Int) (i : Nat) (hi : i < (column b x).length) :
    (column b x)[i] = getPuyoAt b x (i : Int) := by
  unfold column at hi ⊢
  simp only [List.getElem_map, List.getElem_range]

theorem column_getD (b : Board) (x : Int) (i : Nat) (hi : i < 14) :
    (column b x).getD i createEmptyPuyo = getPuyoAt b x (i : Int) := by
  rw [List.getD_eq_getElem _ _ (by rw [column_length]; exact hi)]
  exact column_getElem b x i _

theorem column_congr (b b' : Board) (x : Int)
    (h : ∀ y : Int, getPuyoAt b' x y = getPuyoAt b x y) : column b' x = column b x := by
  unfold column
  exact List.map_congr_left (fun n _ => h n)

theorem gravityCellStep_stay (cur : Board) (m : Bool) (x y : Int)
    (hcond : (!(isEmpty (getPuyoAt cur x y)) && isEmptyAt cur x (y + 1)) = false) :
    gravityCellStep (cur, m) x y = (cur, m) := by
  unfold gravityCellStep
  dsimp only
  rw [hcond]
  rfl

theorem gravityCellStep_move (cur : Board) (m : Bool) (x y : Int)
    (hcond : (!(isEmpty (getPuyoAt cur x y)) && isEmptyAt cur x (y + 1)) = true)
    (hoob1 : isOutOfBounds cur x (y + 1) = false)
    (hoob2 : isOutOfBounds
      (Board.mk (cur.grid.set (y + 1).toNat
        ((cur.grid.getD (y + 1).toNat []).set x.toNat (getPuyoAt cur x y)))) x y = false) :
    gravityCellStep (cur, m) x y =
      (⟨(Board.mk (cur.grid.set (y + 1).toNat
          ((cur.grid.getD (y + 1).toNat []).set x.toNat (getPuyoAt cur x y)))).grid.set y.toNat
            (((Board.mk (cur.grid.set (y + 1).toNat
              ((cur.grid.getD (y + 1).toNat []).set x.toNat
                (getPuyoAt cur x y)))).grid.getD y.toNat []).set x.toNat createEmptyPuyo)⟩,
        true) := by
  unfold gravityCellStep
  dsimp only
  rw [hcond]
  rw [if_pos rfl]
  rw [setPuyoAt_inBounds cur x (y + 1) (getPuyoAt cur x y) hoob1]
  dsimp only
  rw [setPuyoAt_inBounds _ x y createEmptyPuyo hoob2]

theorem isEmpty_createEmptyPuyo : isEmpty createEmptyPuyo = true := rfl

theorem gravityCellStep_inv (bin cur : Board) (m : Bool) (x y : Int)
    (hx0 : 0 ≤ x) (hx6 : x < 6) (hy1 : 1 ≤ y) (hy12 : y ≤ 12)
    (hinv : GravColInv bin cur x (y + 1)) :
    GravColInv bin (gravityCellStep (cur, m) x y).1 x y := by
  obtain ⟨hwf, hothers, habove, hdesc, hfil⟩ := hinv
  by_cases hcond : (!(isEmpty (getPuyoAt cur x y)) && isEmptyAt cur x (y + 1)) = true
  · -- the cell moves one row down
    have hlen : cur.grid.length = 14 := hwf.1
    have hcond' := hcond
    simp only [Bool.and_eq_true, Bool.not_eq_true'] at hcond'
    obtain ⟨hv, hbelow⟩ := hcond'
    have hoob1 : isOutOfBounds cur x (y + 1) = false := by
      rw [isOutOfBounds_false_iff]
      refine ⟨hx0, hx6, by omega, by omega⟩
    have hwf1 : BoardWF ⟨cur.grid.set (y + 1).toNat
        ((cur.grid.getD (y + 1).toNat []).set x.toNat (getPuyoAt cur x y))⟩ :=
      boardWF_set cur x (y + 1) (getPuyoAt cur x y) hwf
    have hoob2 : isOutOfBounds ⟨cur.grid.set (y + 1).toNat
        ((cur.grid.getD (y + 1).toNat []).set x.toNat (getPuyoAt cur x y))⟩ x y = false := by
      rw [isOutOfBounds_false_iff]
      have := hwf1.1
      refine ⟨hx0, hx6, by omega, by omega⟩
    have hwf2 : BoardWF (gravityCellStep (cur, m) x y).1 := by
      rw [gravityCellStep_move cur m x y hcond hoob1 hoob2]
      exact boardWF_set _ x y createEmptyPuyo hwf1
    have hb1same : getPuyoAt ⟨cur.grid.set (y + 1).toNat
        ((cur.grid.getD (y + 1).toNat []).set x.toNat (getPuyoAt cur x y))⟩ x (y + 1) =
        getPuyoAt cur x y :=
      getPuyoAt_set_same cur x (y + 1) _ hwf hoob1
    have hb1other : ∀ x' y' : Int, ¬(x' = x ∧ y' = y + 1) →
        getPuyoAt ⟨cur.grid.set (y + 1).toNat
          ((cur.grid.getD (y + 1).toNat []).set x.toNat (getPuyoAt cur x y))⟩ x' y' =
        getPuyoAt cur x' y' :=
      fun x' y' hne => getPuyoAt_set_other cur x (y + 1) x' y' _ hwf hoob1 hne
    have hb2same : getPuyoAt (gravityCellStep (cur, m) x y).1 x y = createEmptyPuyo := by
      rw [gravityCellStep_move cur m x y hcond hoob1 hoob2]
      exact getPuyoAt_set_same _ x y createEmptyPuyo hwf1 hoob2
    have hb2other : ∀ x' y' : Int, ¬(x' = x ∧ y' = y) →
        getPuyoAt (gravityCellStep (cur, m) x y).1 x' y' =
        getPuyoAt ⟨cur.grid.set (y + 1).toNat
          ((cur.grid.getD (y + 1).toNat []).set x.toNat (getPuyoAt cur x y))⟩ x' y' := by
      intro x' y' hne
      rw [gravityCellStep_move cur m x y hcond hoob1 hoob2]
      exact getPuyoAt_set_other _ x y x' y' createEmptyPuyo hwf1 hoob2 hne
    refine ⟨hwf2, ?_, ?_, ?_, ?_⟩
    · intro x' y' hne
      rw [hb2other x' y' (fun hc => hne hc.1), hb1other x' y' (fun hc => hne hc.1)]
      exact hothers x' y' hne
    · intro y' hy'
      rw [hb2other x y' (fun hc => by omega), hb1other x y' (fun hc => by omega)]
      exact habove y' (by omega)
    · intro y' hne
      by_cases hyy : y' = y
      · subst hyy
        rw [hb2same, isEmpty_createEmptyPuyo] at hne
        exact absurd hne (by simp)
      · by_cases hyy1 : y' = y + 1
        · subst hyy1
          right
          refine ⟨by omega, ?_⟩
          rw [hb2other x (y + 1) (fun hc => by omega), hb1same]
          have hsub : y + 1 - 1 = y := by omega
          rw [hsub]
          exact habove y (by omega)
        · rw [hb2other x y' (fun hc => hyy hc.2), hb1other x y' (fun hc => hyy1 hc.2)]
          rw [hb2other x y' (fun hc => hyy hc.2), hb1other x y' (fun hc => hyy1 hc.2)] at hne
          rcases hdesc y' hne with h | ⟨hk, he⟩
          · exact Or.inl h
          · exact Or.inr ⟨by omega, he⟩
    · have hcol : column (gravityCellStep (cur, m) x y).1 x =
          ((column cur x).set y.toNat createEmptyPuyo).set (y.toNat + 1)
            ((column cur x).getD y.toNat createEmptyPuyo) := by
        apply List.ext_getElem
        · rw [column_length]
          simp [column_length]
        · intro i hi1 hi2
          rw [column_getElem]
          have hi14 : i < 14 := by
            have := column_length (gravityCellStep (cur, m) x y).1 x
            omega
          by_cases hiy : i = y.toNat
          · subst hiy
            rw [show ((y.toNat : Nat) : Int) = y from by omega, hb2same]
            rw [List.getElem_set_ne (by omega)]
            rw [List.getElem_set_self (by rw [List.length_set, column_length]; omega)]
          · by_cases hiy1 : i = y.toNat + 1
            · subst hiy1
              rw [show ((y.toNat + 1 : Nat) : Int) = y + 1 from by omega]
              rw [hb2other x (y + 1) (fun hc => by omega), hb1same]
              rw [List.getElem_set_self (by
                rw [List.length_set, List.length_set, column_length]; omega)]
              rw [column_getD cur x y.toNat (by omega)]
              rw [show ((y.toNat : Nat) : Int) = y from by omega]
            · rw [hb2other x (i : Int) (fun hc => by omega),
                hb1other x (i : Int) (fun hc => by omega)]
              rw [List.getElem_set_ne (by omega), List.getElem_set_ne (by omega)]
              rw [column_getElem]
      rw [hcol]
      rw [filter_set_set (fun p => !(isEmpty p)) createEmptyPuyo (column cur x) y.toNat
        (by rw [column_length]; omega) createEmptyPuyo (by rfl)
        (by
          rw [column_getD cur x (y.toNat + 1) (by omega)]
          show (!(isEmpty (getPuyoAt cur x (((y.toNat + 1 : Nat)) : Int)))) = false
          rw [show (((y.toNat + 1 : Nat)) : Int) = y + 1 from by omega]
          unfold isEmptyAt at hbelow
          rw [hbelow]
          rfl)]
      exact hfil
  · -- nothing to do at this cell: the invariant weakens from k = y + 1 to y
    rw [gravityCellStep_stay cur m x y (by simpa using hcond)]
    dsimp only
    refine ⟨hwf, hothers, fun y' hy' => habove y' (by omega), ?_, hfil⟩
    intro y' hne
    rcases hdesc y' hne with h | ⟨hk, he⟩
    · exact Or.inl h
    · exact Or.inr ⟨by omega, he⟩

theorem GravColInv_refl (b : Board) (x k : Int) (hwf : BoardWF b) : GravColInv b b x k :=
  ⟨hwf, fun _ _ _ => rfl, fun _ _ => rfl, fun _ _ => Or.inl rfl, rfl⟩

theorem gravYs_succ (k : Nat) :
    ((List.range' 1 (k + 1)).map (fun n : Nat => (n : Int))).reverse =
      ((k + 1 : Nat) : Int) :: ((List.range' 1 k).map (fun n : Nat => (n : Int))).reverse := by
  rw [show List.range' 1 (k + 1) = List.range' 1 k ++ [1 + k] from by
    rw [Nat.add_comm k 1, ← List.range'_append_1 1 k 1]
    rfl]
  rw [List.map_append, List.reverse_append]
  simp [Nat.add_comm]

theorem gravityColFold (bin : Board) (x : Int) (hx0 : 0 ≤ x) (hx6 : x < 6) :
    ∀ (k : Nat), k ≤ 12 → ∀ (cur : Board) (m : Bool),
      GravColInv bin cur x (((k : Nat) : Int) + 1) →
      GravColInv bin
        ((((List.range' 1 k).map (fun n : Nat => (n : Int))).reverse.foldl
          (fun st y => gravityCellStep st x y) (cur, m))).1 x 1 := by
  intro k
  induction k with
  | zero =>
    intro hk cur m hinv
    simpa using hinv
  | succ k ih =>
    intro hk cur m hinv
    rw [gravYs_succ k, List.foldl_cons]
    have hstep := gravityCellStep_inv bin cur m x ((k + 1 : Nat) : Int) hx0 hx6
      (by push_cast; omega) (by push_cast; omega) hinv
    have hcast : (((k + 1 : Nat) : Nat) : Int) = ((k : Nat) : Int) + 1 := by push_cast; ring
    rw [hcast] at hstep
    exact ih (by omega) _ _ hstep

theorem gravityYs_wf (b : Board) (hwf : BoardWF b) :
    gravityYs b = ((List.range' 1 12).map (fun n : Nat => (n : Int))).reverse := by
  unfold gravityYs
  rw [hwf.1]

theorem GravColDone_congr (bin b1 b2 : Board) (x : Int)
    (h : ∀ y : Int, getPuyoAt b2 x y = getPuyoAt b1 x y) (hd : GravColDone bin b1 x) :
    GravColDone bin b2 x := by
  obtain ⟨hdesc, hfil⟩ := hd
  constructor
  · intro y' hne
    rw [h y'] at hne ⊢
    exact hdesc y' hne
  · rw [column_congr b1 b2 x h]
    exact hfil

theorem GravColInv_to_done (bin cur out : Board) (x : Int)
    (hpr : ∀ y : Int, getPuyoAt cur x y = getPuyoAt bin x y)
    (hinv : GravColInv cur out x 1) : GravColDone bin out x := by
  obtain ⟨hwf, hothers, habove, hdesc, hfil⟩ := hinv
  constructor
  · intro y' hne
    rcases hdesc y' hne with h | ⟨hk, he⟩
    · exact Or.inl (h.trans (hpr y'))
    · exact Or.inr ⟨hk, he.trans (hpr (y' - 1))⟩
  · rw [hfil, column_congr bin cur x hpr]

theorem gravityOuterFold (bin : Board) :
    ∀ (xs : List Int), (∀ x ∈ xs, 0 ≤ x ∧ x < 6) → xs.Nodup →
      ∀ (cur : Board) (m : Bool), BoardWF cur →
      (∀ x ∈ xs, ∀ y : Int, getPuyoAt cur x y = getPuyoAt bin x y) →
      BoardWF ((xs.foldl (fun st x =>
          (((List.range' 1 12).map (fun n : Nat => (n : Int))).reverse).foldl
            (fun st y => gravityCellStep st x y) st) (cur, m))).1 ∧
      (∀ x ∈ xs, GravColDone bin
        ((xs.foldl (fun st x =>
          (((List.range' 1 12).map (fun n : Nat => (n : Int))).reverse).foldl
            (fun st y => gravityCellStep st x y) st) (cur, m))).1 x) ∧
      (∀ x y : Int, x ∉ xs →
        getPuyoAt ((xs.foldl (fun st x =>
          (((List.range' 1 12).map (fun n : Nat => (n : Int))).reverse).foldl
            (fun st y => gravityCellStep st x y) st) (cur, m))).1 x y =
          getPuyoAt cur x y) := by
  intro xs
  induction xs with
  | nil =>
    intro hbounds hnodup cur m hwf hpr
    exact ⟨hwf, by simp, fun x y _ => rfl⟩
  | cons x rest ih =>
    intro hbounds hnodup cur m hwf hpr
    rw [List.foldl_cons]
    have hx := hbounds x (List.mem_cons_self x rest)
    have hinv1 : GravColInv cur
        ((((List.range' 1 12).map (fun n : Nat => (n : Int))).reverse.foldl
          (fun st y => gravityCellStep st x y) (cur, m))).1 x 1 :=
      gravityColFold cur x hx.1 hx.2 12 (by omega) cur m (GravColInv_refl cur x _ hwf)
    obtain ⟨hwf1, hothers1, _, _, _⟩ := hinv1
    have hdone1 : GravColDone bin
        ((((List.range' 1 12).map (fun n : Nat => (n : Int))).reverse.foldl
          (fun st y => gravityCellStep st x y) (cur, m))).1 x :=
      GravColInv_to_done bin cur _ x (hpr x (List.mem_cons_self x rest))
        (gravityColFold cur x hx.1 hx.2 12 (by omega) cur m (GravColInv_refl cur x _ hwf))
    have hnodup' := (List.nodup_cons.mp hnodup)
    have hrest := ih (fun z hz => hbounds z (List.mem_cons_of_mem x hz)) hnodup'.2
      ((((List.range' 1 12).map (fun n : Nat => (n : Int))).reverse.foldl
        (fun st y => gravityCellStep st x y) (cur, m))).1
      ((((List.range' 1 12).map (fun n : Nat => (n : Int))).reverse.foldl
        (fun st y => gravityCellStep st x y) (cur, m))).2
      hwf1
      (fun z hz yy => by
        rw [hothers1 z yy (fun hc => hnodup'.1 (hc ▸ hz))]
        exact hpr z (List.mem_cons_of_mem x hz) yy)
    obtain ⟨hwfo, hdoneo, huncho⟩ := hrest
    refine ⟨hwfo, ?_, ?_⟩
    · intro z hz
      rcases List.mem_cons.mp hz with hzx | hzr
      · subst hzx
        exact GravColDone_congr bin _ _ z (fun yy => huncho z yy hnodup'.1) hdone1
      · exact hdoneo z hzr
    · intro z yy hz
      rw [huncho z yy (fun hc => hz (List.mem_cons_of_mem x hc))]
      exact hothers1 z yy (fun hc => hz (hc ▸ List.mem_cons_self x rest))

theorem mem_boardXs (x : Int) : x ∈ boardXs ↔ 0 ≤ x ∧ x < 6 := by
  unfold boardXs BOARD_WIDTH
  simp only [List.mem_map, List.mem_range]
  constructor
  · rintro ⟨n, hn, rfl⟩
    omega
  · intro ⟨h0, h6⟩
    exact ⟨x.toNat, by omega, by omega⟩

theorem boardXs_nodup : boardXs.Nodup := by
  unfold boardXs
  refine List.Nodup.map ?_ (List.nodup_range _)
  intro a b hab
  have hab' : (a : Int) = (b : Int) := hab
  exact_mod_cast hab'

/-- C10: `applyGravity` relocates the board's Puyos: it keeps the well-formed
shape, preserves the multiset of non-empty Puyos of every column (so no Puyo
is created, destroyed, recolored, or moved across columns), and every
non-empty cell of the result holds either the Puyo that was already there or
the Puyo from the cell directly above (one-row descent per call; the crane
row `y = 0` never receives a Puyo). -/
theorem C10_applyGravity_relocation (b : Board) (hwf : BoardWF b) :
    BoardWF (applyGravity b).1 ∧
    (∀ x : Int, columnPuyos (applyGravity b).1 x = columnPuyos b x) ∧
    (∀ x y : Int, isEmpty (getPuyoAt (applyGravity b).1 x y) = false →
      getPuyoAt (applyGravity b).1 x y = getPuyoAt b x y ∨
        (1 ≤ y ∧ getPuyoAt (applyGravity b).1 x y = getPuyoAt b x (y - 1))) := by
  have happ : applyGravity b = boardXs.foldl (fun st x =>
      (((List.range' 1 12).map (fun n : Nat => (n : Int))).reverse).foldl
        (fun st y => gravityCellStep st x y) st) (b, false) := by
    unfold applyGravity
    rw [show gravityYs b = ((List.range' 1 12).map (fun n : Nat => (n : Int))).reverse from
      gravityYs_wf b hwf]
  have hmain := gravityOuterFold b boardXs (fun x hx => (mem_boardXs x).mp hx)
    boardXs_nodup b false hwf (fun _ _ _ => rfl)
  obtain ⟨hwfo, hdone, hunch⟩ := hmain
  rw [happ]
  refine ⟨hwfo, ?_, ?_⟩
  · intro x
    by_cases hx : x ∈ boardXs
    · unfold columnPuyos
      rw [(hdone x hx).2]
    · unfold columnPuyos
      rw [column_congr b _ x (fun y => hunch x y hx)]
  · intro x y hne
    by_cases hx : x ∈ boardXs
    · exact (hdone x hx).1 y hne
    · exact Or.inl (hunch x y hx)

/-- C10 witness: the gravity relocation properties on the empty board. -/
theorem C10_witness :
    BoardWF (applyGravity createBoard).1 ∧
    (∀ x : Int, columnPuyos (applyGravity createBoard).1 x = columnPuyos createBoard x) ∧
    (∀ x y : Int, isEmpty (getPuyoAt (applyGravity createBoard).1 x y) = false →
      getPuyoAt (applyGravity createBoard).1 x y = getPuyoAt createBoard x y ∨
        (1 ≤ y ∧ getPuyoAt (applyGravity createBoard).1 x y =
          getPuyoAt createBoard x (y - 1))) :=
  C10_applyGravity_relocation createBoard boardWF_createBoard

/-! ### C3: chain detection -/

theorem contains_iff_pos (V : List Position) (p : Position) : V.contains p = true ↔ p ∈ V :=
  List.elem_iff

theorem allowedCell_iff (b : Board) (c : PuyoColor) (p : Position) :
    allowedCell b c p = true ↔
      isOutOfBounds b p.x p.y = false ∧ isEmptyAt b p.x p.y = false ∧
        (getPuyoAt b p.x p.y).color = c ∧ isGhostRow p.y = false ∧ isCraneRow p.y = false := by
  unfold allowedCell
  cases h1 : isOutOfBounds b p.x p.y <;> cases h2 : isEmptyAt b p.x p.y <;>
    cases h3 : decide ((getPuyoAt b p.x p.y).color = c) <;> cases h4 : isGhostRow p.y <;>
    cases h5 : isCraneRow p.y <;> simp_all

theorem dfs_cond (b : Board) (x y : Int) (c : PuyoColor) (V : List Position) :
    (isOutOfBounds b x y || V.contains ⟨x, y⟩ || isEmptyAt b x y ||
        decide ((getPuyoAt b x y).color ≠ c) || isGhostRow y || isCraneRow y) =
      (!(allowedCell b c ⟨x, y⟩) || V.contains ⟨x, y⟩) := by
  unfold allowedCell
  cases h1 : isOutOfBounds b x y <;> cases h2 : V.contains (⟨x, y⟩ : Position) <;>
    cases h3 : isEmptyAt b x y <;> cases h4 : decide ((getPuyoAt b x y).color = c) <;>
    cases h5 : isGhostRow y <;> cases h6 : isCraneRow y <;>
    simp_all

theorem dfs_stop (fuel : Nat) (b : Board) (x y : Int) (c : PuyoColor) (V G : List Position)
    (h : (!(allowedCell b c ⟨x, y⟩) || V.contains ⟨x, y⟩) = true) :
    findConnectedPuyos (fuel + 1) b x y c V G = (V, G) := by
  unfold findConnectedPuyos
  rw [if_pos]
  rw [dfs_cond]
  exact h

theorem dfs_go (fuel : Nat) (b : Board) (x y : Int) (c : PuyoColor) (V G : List Position)
    (hall : allowedCell b c ⟨x, y⟩ = true) (hnv : V.contains ⟨x, y⟩ = false) :
    findConnectedPuyos (fuel + 1) b x y c V G =
      findConnectedPuyos fuel b x (y - 1) c
        (findConnectedPuyos fuel b x (y + 1) c
          (findConnectedPuyos fuel b (x - 1) y c
            (findConnectedPuyos fuel b (x + 1) y c
              (Position.mk x y :: V) (G ++ [Position.mk x y])).1
            (findConnectedPuyos fuel b (x + 1) y c
              (Position.mk x y :: V) (G ++ [Position.mk x y])).2).1
          (findConnectedPuyos fuel b (x - 1) y c
            (findConnectedPuyos fuel b (x + 1) y c
              (Position.mk x y :: V) (G ++ [Position.mk x y])).1
            (findConnectedPuyos fuel b (x + 1) y c
              (Position.mk x y :: V) (G ++ [Position.mk x y])).2).2).1
        (findConnectedPuyos fuel b x (y + 1) c
          (findConnectedPuyos fuel b (x - 1) y c
            (findConnectedPuyos fuel b (x + 1) y c
              (Position.mk x y :: V) (G ++ [Position.mk x y])).1
            (findConnectedPuyos fuel b (x + 1) y c
              (Position.mk x y :: V) (G ++ [Position.mk x y])).2).1
          (findConnectedPuyos fuel b (x - 1) y c
            (findConnectedPuyos fuel b (x + 1) y c
              (Position.mk x y :: V) (G ++ [Position.mk x y])).1
            (findConnectedPuyos fuel b (x + 1) y c
              (Position.mk x y :: V) (G ++ [Position.mk x y])).2).2).2 := by
  conv_lhs => unfold findConnectedPuyos
  rw [if_neg (by rw [dfs_cond, hall, hnv]; simp)]

theorem dfs_spec (b : Board) (c : PuyoColor) :
    ∀ (fuel : Nat) (x y : Int) (V G : List Position),
      ∃ L : List Position,
        (findConnectedPuyos fuel b x y c V G).1 = L ++ V ∧
        (findConnectedPuyos fuel b x y c V G).2 = G ++ L.reverse ∧
        (∀ p ∈ L, allowedCell b c p = true ∧ p ∉ V ∧ chainReach b c ⟨x, y⟩ p) ∧
        L.Nodup ∧
        (L = [] ∨ Position.mk x y ∈ L) := by
  intro fuel
  induction fuel with
  | zero =>
    intro x y V G
    exact ⟨[], rfl, by show (V, G).2 = G ++ [].reverse; simp, by simp,
      List.nodup_nil, Or.inl rfl⟩
  | succ fuel ih =>
    intro x y V G
    by_cases hc : (!(allowedCell b c ⟨x, y⟩) || V.contains ⟨x, y⟩) = true
    · rw [dfs_stop fuel b x y c V G hc]
      exact ⟨[], rfl, by simp, by simp, List.nodup_nil, Or.inl rfl⟩
    · have hc' : (!(allowedCell b c ⟨x, y⟩) || V.contains ⟨x, y⟩) = false :=
        Bool.eq_false_iff.mpr hc
      obtain ⟨hna, hnv⟩ := Bool.or_eq_false_iff.mp hc'
      have hall : allowedCell b c ⟨x, y⟩ = true := by simpa using hna
      have hsnv : Position.mk x y ∉ V := fun hm =>
        by rw [(contains_iff_pos V ⟨x, y⟩).mpr hm] at hnv; exact Bool.true_eq_false.mp hnv
      rw [dfs_go fuel b x y c V G hall hnv]
      set r1 := findConnectedPuyos fuel b (x + 1) y c
        (Position.mk x y :: V) (G ++ [Position.mk x y]) with hr1
      set r2 := findConnectedPuyos fuel b (x - 1) y c r1.1 r1.2 with hr2
      set r3 := findConnectedPuyos fuel b x (y + 1) c r2.1 r2.2 with hr3
      set r4 := findConnectedPuyos fuel b x (y - 1) c r3.1 r3.2 with hr4
      obtain ⟨L1, e11, e12, h13, h14, h15⟩ :=
        ih (x + 1) y (Position.mk x y :: V) (G ++ [Position.mk x y])
      rw [← hr1] at e11 e12
      obtain ⟨L2, e21, e22, h23, h24, h25⟩ := ih (x - 1) y r1.1 r1.2
      rw [← hr2] at e21 e22
      obtain ⟨L3, e31, e32, h33, h34, h35⟩ := ih x (y + 1) r2.1 r2.2
      rw [← hr3] at e31 e32
      obtain ⟨L4, e41, e42, h43, h44, h45⟩ := ih x (y - 1) r3.1 r3.2
      rw [← hr4] at e41 e42
      have hsub1 : ∀ q : Position, q ∈ V → q ∈ r1.1 := by
        intro q hq
        rw [e11]
        exact List.mem_append_right _ (List.mem_cons_of_mem _ hq)
      have hs1 : Position.mk x y ∈ r1.1 := by
        rw [e11]
        exact List.mem_append_right _ (List.mem_cons_self _ _)
      have hL1r1 : ∀ q : Position, q ∈ L1 → q ∈ r1.1 := by
        intro q hq
        rw [e11]
        exact List.mem_append_left _ hq
      have hsub12 : ∀ q : Position, q ∈ r1.1 → q ∈ r2.1 := by
        intro q hq
        rw [e21]
        exact List.mem_append_right _ hq
      have hL2r2 : ∀ q : Position, q ∈ L2 → q ∈ r2.1 := by
        intro q hq
        rw [e21]
        exact List.mem_append_left _ hq
      have hsub23 : ∀ q : Position, q ∈ r2.1 → q ∈ r3.1 := by
        intro q hq
        rw [e31]
        exact List.mem_append_right _ hq
      have hL3r3 : ∀ q : Position, q ∈ L3 → q ∈ r3.1 := by
        intro q hq
        rw [e31]
        exact List.mem_append_left _ hq
      refine ⟨L4 ++ (L3 ++ (L2 ++ (L1 ++ [Position.mk x y]))), ?_, ?_, ?_, ?_, ?_⟩
      · rw [e41, e31, e21, e11]
        simp [List.append_assoc]
      · rw [e42, e32, e22, e12]
        simp [List.reverse_append, List.append_assoc]
      · intro p hp
        simp only [List.mem_append, List.mem_singleton] at hp
        rcases hp with h | h | h | h | h
        · obtain ⟨hpa, hpn, hpr⟩ := h43 p h
          have hst : Position.mk x (y - 1) ∈ L4 := by
            rcases h45 with he | hm
            · rw [he] at h
              exact absurd h (List.not_mem_nil p)
            · exact hm
          have hsta : allowedCell b c ⟨x, y - 1⟩ = true := (h43 _ hst).1
          refine ⟨hpa, ?_, ?_⟩
          · intro hv
            exact hpn (hsub23 _ (hsub12 _ (hsub1 _ hv)))
          · exact Relation.ReflTransGen.head
              ⟨Or.inr (Or.inr (Or.inr rfl)), hsta⟩ hpr
        · obtain ⟨hpa, hpn, hpr⟩ := h33 p h
          have hst : Position.mk x (y + 1) ∈ L3 := by
            rcases h35 with he | hm
            · rw [he] at h
              exact absurd h (List.not_mem_nil p)
            · exact hm
          have hsta : allowedCell b c ⟨x, y + 1⟩ = true := (h33 _ hst).1
          refine ⟨hpa, ?_, ?_⟩
          · intro hv
            exact hpn (hsub12 _ (hsub1 _ hv))
          · exact Relation.ReflTransGen.head
              ⟨Or.inr (Or.inr (Or.inl rfl)), hsta⟩ hpr
        · obtain ⟨hpa, hpn, hpr⟩ := h23 p h
          have hst : Position.mk (x - 1) y ∈ L2 := by
            rcases h25 with he | hm
            · rw [he] at h
              exact absurd h (List.not_mem_nil p)
            · exact hm
          have hsta : allowedCell b c ⟨x - 1, y⟩ = true := (h23 _ hst).1
          refine ⟨hpa, ?_, ?_⟩
          · intro hv
            exact hpn (hsub1 _ hv)
          · exact Relation.ReflTransGen.head
              ⟨Or.inr (Or.inl rfl), hsta⟩ hpr
        · obtain ⟨hpa, hpn, hpr⟩ := h13 p h
          have hst : Position.mk (x + 1) y ∈ L1 := by
            rcases h15 with he | hm
            · rw [he] at h
              exact absurd h (List.not_mem_nil p)
            · exact hm
          have hsta : allowedCell b c ⟨x + 1, y⟩ = true := (h13 _ hst).1
          refine ⟨hpa, ?_, ?_⟩
          · intro hv
            exact hpn (List.mem_cons_of_mem _ hv)
          · exact Relation.ReflTransGen.head
              ⟨Or.inl rfl, hsta⟩ hpr
        · rw [h]
          exact ⟨hall, hsnv, Relation.ReflTransGen.refl⟩
      · have n1 : (L1 ++ [Position.mk x y]).Nodup := by
          refine List.Nodup.append h14 (List.nodup_singleton _) ?_
          intro a ha hb
          rw [List.mem_singleton] at hb
          rw [hb] at ha
          exact (h13 _ ha).2.1 (List.mem_cons_self _ _)
        have n2 : (L2 ++ (L1 ++ [Position.mk x y])).Nodup := by
          refine List.Nodup.append h24 n1 ?_
          intro a ha hb
          rcases List.mem_append.mp hb with hb1 | hb2
          · exact (h23 _ ha).2.1 (hL1r1 _ hb1)
          · rw [List.mem_singleton] at hb2
            rw [hb2] at ha
            exact (h23 _ ha).2.1 hs1
        have n3 : (L3 ++ (L2 ++ (L1 ++ [Position.mk x y]))).Nodup := by
          refine List.Nodup.append h34 n2 ?_
          intro a ha hb
          rcases List.mem_append.mp hb with hb1 | hb2
          · exact (h33 _ ha).2.1 (hL2r2 _ hb1)
          rcases List.mem_append.mp hb2 with hb3 | hb4
          · exact (h33 _ ha).2.1 (hsub12 _ (hL1r1 _ hb3))
          · rw [List.mem_singleton] at hb4
            rw [hb4] at ha
            exact (h33 _ ha).2.1 (hsub12 _ hs1)
        refine List.Nodup.append h44 n3 ?_
        intro a ha hb
        rcases List.mem_append.mp hb with hb1 | hb2
        · exact (h43 _ ha).2.1 (hL3r3 _ hb1)
        rcases List.mem_append.mp hb2 with hb3 | hb4
        · exact (h43 _ ha).2.1 (hsub23 _ (hL2r2 _ hb3))
        rcases List.mem_append.mp hb4 with hb5 | hb6
        · exact (h43 _ ha).2.1 (hsub23 _ (hsub12 _ (hL1r1 _ hb5)))
        · rw [List.mem_singleton] at hb6
          rw [hb6] at ha
          exact (h43 _ ha).2.1 (hsub23 _ (hsub12 _ hs1))
      · right
        simp

theorem dfs_visited_sub (b : Board) (c : PuyoColor) (fuel : Nat) (x y : Int)
    (V G : List Position) :
    ∀ q : Position, q ∈ V → q ∈ (findConnectedPuyos fuel b x y c V G).1 := by
  obtain ⟨L, h1, _⟩ := dfs_spec b c fuel x y V G
  intro q hq
  rw [h1]
  exact List.mem_append_right _ hq

theorem length_allPositions (b : Board) :
    (allPositions b).length = b.grid.length * BOARD_WIDTH.toNat := by
  unfold allPositions
  rw [List.length_map, List.length_range]

theorem freeCount_le (b : Board) (c : PuyoColor) (V : List Position) :
    freeCount b c V ≤ b.grid.length * BOARD_WIDTH.toNat := by
  unfold freeCount
  exact le_trans (List.countP_le_length _) (le_of_eq (length_allPositions b))

theorem mem_allPositions (b : Board) (p : Position)
    (h0x : 0 ≤ p.x) (hx : p.x < 6) (h0y : 0 ≤ p.y) (hy : p.y < (b.grid.length : Int)) :
    p ∈ allPositions b := by
  obtain ⟨px, py⟩ := p
  unfold allPositions
  rw [List.mem_map]
  have hw : BOARD_WIDTH.toNat = 6 := rfl
  refine ⟨py.toNat * 6 + px.toNat, ?_, ?_⟩
  · rw [List.mem_range, hw]
    simp only at h0x hx h0y hy
    omega
  · rw [hw]
    simp only at h0x hx h0y hy
    have hmod : (py.toNat * 6 + px.toNat) % 6 = px.toNat := by omega
    have hdiv : (py.toNat * 6 + px.toNat) / 6 = py.toNat := by omega
    rw [hmod, hdiv, Position.mk.injEq]
    omega

theorem freeCount_mono (b : Board) (c : PuyoColor) (V W : List Position)
    (h : ∀ q ∈ V, q ∈ W) :
    freeCount b c W ≤ freeCount b c V := by
  unfold freeCount
  apply List.countP_mono_left
  intro p _ hp
  rw [Bool.and_eq_true] at hp ⊢
  refine ⟨hp.1, ?_⟩
  have hnw : p ∉ W := by
    have := hp.2
    rw [Bool.not_eq_true'] at this
    exact of_decide_eq_false this
  rw [Bool.not_eq_true']
  exact decide_eq_false (fun hv => hnw (h p hv))

theorem freeCount_lt (b : Board) (c : PuyoColor) (V : List Position) (s : Position)
    (hall : allowedCell b c s = true) (hs : s ∉ V) (hmem : s ∈ allPositions b) :
    freeCount b c (s :: V) < freeCount b c V := by
  obtain ⟨l₁, l₂, hsplit⟩ := List.append_of_mem hmem
  unfold freeCount
  rw [hsplit, List.countP_append, List.countP_append, List.countP_cons, List.countP_cons]
  have hold : (allowedCell b c s && !(decide (s ∈ V))) = true := by
    rw [Bool.and_eq_true, hall, Bool.not_eq_true']
    exact ⟨rfl, decide_eq_false hs⟩
  have hnew : (allowedCell b c s && !(decide (s ∈ s :: V))) = false := by
    rw [Bool.and_eq_false_iff]
    right
    rw [Bool.not_eq_false']
    exact decide_eq_true (List.mem_cons_self _ _)
  rw [hold, hnew]
  have hm1 : l₁.countP (fun p => allowedCell b c p && !(decide (p ∈ s :: V))) ≤
      l₁.countP (fun p => allowedCell b c p && !(decide (p ∈ V))) := by
    apply List.countP_mono_left
    intro p _ hp
    rw [Bool.and_eq_true] at hp ⊢
    refine ⟨hp.1, ?_⟩
    have : p ∉ s :: V := by
      have := hp.2
      rw [Bool.not_eq_true'] at this
      exact of_decide_eq_false this
    rw [Bool.not_eq_true']
    exact decide_eq_false (fun hv => this (List.mem_cons_of_mem _ hv))
  have hm2 : l₂.countP (fun p => allowedCell b c p && !(decide (p ∈ s :: V))) ≤
      l₂.countP (fun p => allowedCell b c p && !(decide (p ∈ V))) := by
    apply List.countP_mono_left
    intro p _ hp
    rw [Bool.and_eq_true] at hp ⊢
    refine ⟨hp.1, ?_⟩
    have : p ∉ s :: V := by
      have := hp.2
      rw [Bool.not_eq_true'] at this
      exact of_decide_eq_false this
    rw [Bool.not_eq_true']
    exact decide_eq_false (fun hv => this (List.mem_cons_of_mem _ hv))
  have hif1 : (if (false = true) then 1 else 0) = 0 := rfl
  have hif2 : (if (true = true) then 1 else 0) = 1 := rfl
  rw [hif1, hif2]
  omega

theorem dfs_complete (b : Board) (c : PuyoColor) :
    ∀ (fuel : Nat) (x y : Int) (V G : List Position),
      freeCount b c V < fuel →
      (allowedCell b c ⟨x, y⟩ = true →
        Position.mk x y ∈ (findConnectedPuyos fuel b x y c V G).1) ∧
      (∀ p : Position, p ∈ (findConnectedPuyos fuel b x y c V G).1 → p ∉ V →
        ∀ q : Position, chainStep b c p q →
          q ∈ (findConnectedPuyos fuel b x y c V G).1) := by
  intro fuel
  induction fuel with
  | zero =>
    intro x y V G hfree
    exact absurd hfree (Nat.not_lt_zero _)
  | succ fuel ih =>
    intro x y V G hfree
    by_cases hc : (!(allowedCell b c ⟨x, y⟩) || V.contains ⟨x, y⟩) = true
    · rw [dfs_stop fuel b x y c V G hc]
      constructor
      · intro hall
        rw [hall] at hc
        simp only [Bool.not_true, Bool.false_or] at hc
        exact (contains_iff_pos V _).mp hc
      · intro p hp hpn q _
        exact absurd hp hpn
    · have hc' : (!(allowedCell b c ⟨x, y⟩) || V.contains ⟨x, y⟩) = false :=
        Bool.eq_false_iff.mpr hc
      obtain ⟨hna, hnv⟩ := Bool.or_eq_false_iff.mp hc'
      have hall : allowedCell b c ⟨x, y⟩ = true := by simpa using hna
      have hsnv : Position.mk x y ∉ V := fun hm => by
        rw [(contains_iff_pos V ⟨x, y⟩).mpr hm] at hnv
        exact Bool.true_eq_false.mp hnv
      rw [dfs_go fuel b x y c V G hall hnv]
      set r1 := findConnectedPuyos fuel b (x + 1) y c
        (Position.mk x y :: V) (G ++ [Position.mk x y]) with hr1
      set r2 := findConnectedPuyos fuel b (x - 1) y c r1.1 r1.2 with hr2
      set r3 := findConnectedPuyos fuel b x (y + 1) c r2.1 r2.2 with hr3
      set r4 := findConnectedPuyos fuel b x (y - 1) c r3.1 r3.2 with hr4
      have hsub1 : ∀ q : Position, q ∈ (Position.mk x y :: V) → q ∈ r1.1 := by
        rw [hr1]
        exact dfs_visited_sub b c fuel (x + 1) y _ _
      have hsub2 : ∀ q : Position, q ∈ r1.1 → q ∈ r2.1 := by
        rw [hr2]
        exact dfs_visited_sub b c fuel (x - 1) y _ _
      have hsub3 : ∀ q : Position, q ∈ r2.1 → q ∈ r3.1 := by
        rw [hr3]
        exact dfs_visited_sub b c fuel x (y + 1) _ _
      have hsub4 : ∀ q : Position, q ∈ r3.1 → q ∈ r4.1 := by
        rw [hr4]
        exact dfs_visited_sub b c fuel x (y - 1) _ _
      have hoob : isOutOfBounds b x y = false := ((allowedCell_iff b c ⟨x, y⟩).mp hall).1
      obtain ⟨h0x, hx6, h0y, hyl⟩ := (isOutOfBounds_false_iff b x y).mp hoob
      have hmem : Position.mk x y ∈ allPositions b :=
        mem_allPositions b ⟨x, y⟩ h0x hx6 h0y hyl
      have hfV : freeCount b c V ≤ fuel := Nat.lt_succ_iff.mp hfree
      have hf1 : freeCount b c (Position.mk x y :: V) < fuel :=
        lt_of_lt_of_le (freeCount_lt b c V _ hall hsnv hmem) hfV
      have hf2 : freeCount b c r1.1 < fuel :=
        lt_of_le_of_lt (freeCount_mono b c (Position.mk x y :: V) r1.1 hsub1) hf1
      have hf3 : freeCount b c r2.1 < fuel :=
        lt_of_le_of_lt (freeCount_mono b c (Position.mk x y :: V) r2.1
          (fun q hq => hsub2 q (hsub1 q hq))) hf1
      have hf4 : freeCount b c r3.1 < fuel :=
        lt_of_le_of_lt (freeCount_mono b c (Position.mk x y :: V) r3.1
          (fun q hq => hsub3 q (hsub2 q (hsub1 q hq)))) hf1
      have ih1 := ih (x + 1) y (Position.mk x y :: V) (G ++ [Position.mk x y]) hf1
      rw [← hr1] at ih1
      have ih2 := ih (x - 1) y r1.1 r1.2 hf2
      rw [← hr2] at ih2
      have ih3 := ih x (y + 1) r2.1 r2.2 hf3
      rw [← hr3] at ih3
      have ih4 := ih x (y - 1) r3.1 r3.2 hf4
      rw [← hr4] at ih4
      constructor
      · intro _
        exact hsub4 _ (hsub3 _ (hsub2 _ (hsub1 _ (List.mem_cons_self _ _))))
      · intro p hp hpn q hstep
        by_cases hp1 : p ∈ r1.1
        · by_cases hps : p = Position.mk x y
          · subst hps
            obtain ⟨hadj, hqall⟩ := hstep
            rcases hadj with h | h | h | h
            · rw [h] at hqall ⊢
              exact hsub4 _ (hsub3 _ (hsub2 _ (ih1.1 hqall)))
            · rw [h] at hqall ⊢
              exact hsub4 _ (hsub3 _ (ih2.1 hqall))
            · rw [h] at hqall ⊢
              exact hsub4 _ (ih3.1 hqall)
            · rw [h] at hqall ⊢
              exact ih4.1 hqall
          · have hpn1 : p ∉ (Position.mk x y :: V) := by
              intro hm
              rcases List.mem_cons.mp hm with he | hv
              · exact hps he
              · exact hpn hv
            exact hsub4 _ (hsub3 _ (hsub2 _ (ih1.2 p hp1 hpn1 q hstep)))
        · by_cases hp2 : p ∈ r2.1
          · exact hsub4 _ (hsub3 _ (ih2.2 p hp2 hp1 q hstep))
          · by_cases hp3 : p ∈ r3.1
            · exact hsub4 _ (ih3.2 p hp3 hp2 q hstep)
            · exact ih4.2 p hp hp3 q hstep

theorem chainReach_allowed (b : Board) (c : PuyoColor) (p q : Position)
    (h : chainReach b c p q) (hp : allowedCell b c p = true) :
    allowedCell b c q = true := by
  induction h with
  | refl => exact hp
  | tail _ hstep _ => exact hstep.2

theorem adjacentPos_symm (p q : Position) (h : adjacentPos p q) : adjacentPos q p := by
  obtain ⟨px, py⟩ := p
  obtain ⟨qx, qy⟩ := q
  unfold adjacentPos at h ⊢
  simp only [Position.mk.injEq] at h ⊢
  omega

theorem chainReach_symm (b : Board) (c : PuyoColor) (p q : Position)
    (hp : allowedCell b c p = true) (h : chainReach b c p q) :
    chainReach b c q p := by
  induction h with
  | refl => exact Relation.ReflTransGen.refl
  | @tail m w hm hstep ih =>
    have hmall : allowedCell b c m = true := chainReach_allowed b c p m hm hp
    exact Relation.ReflTransGen.trans
      (Relation.ReflTransGen.single ⟨adjacentPos_symm m w hstep.1, hmall⟩) ih

theorem component_eq_of_mem (b : Board) (s p : Position)
    (hs : allowedCell b ((getPuyoAt b s.x s.y).color) s = true)
    (hp : chainReach b ((getPuyoAt b s.x s.y).color) s p) :
    component b p = component b s := by
  have hpall : allowedCell b ((getPuyoAt b s.x s.y).color) p = true :=
    chainReach_allowed b _ s p hp hs
  have hcol : (getPuyoAt b p.x p.y).color = (getPuyoAt b s.x s.y).color :=
    ((allowedCell_iff b _ p).mp hpall).2.2.1
  unfold component
  rw [hcol]
  ext q
  simp only [Set.mem_setOf_eq]
  constructor
  · intro h
    exact Relation.ReflTransGen.trans hp h
  · intro h
    exact Relation.ReflTransGen.trans (chainReach_symm b _ s p hs hp) h

theorem isOutOfBounds_congr (b0 b : Board) (hlen : b.grid.length = b0.grid.length)
    (x y : Int) : isOutOfBounds b x y = isOutOfBounds b0 x y := by
  rw [isOutOfBounds_eq_decide, isOutOfBounds_eq_decide, hlen]

theorem isEmptyAt_congr (b0 b : Board)
    (hcol : ∀ x y : Int, (getPuyoAt b x y).color = (getPuyoAt b0 x y).color)
    (x y : Int) : isEmptyAt b x y = isEmptyAt b0 x y := by
  unfold isEmptyAt isEmpty
  rw [hcol]

theorem allowedCell_congr (b0 b : Board) (hlen : b.grid.length = b0.grid.length)
    (hcol : ∀ x y : Int, (getPuyoAt b x y).color = (getPuyoAt b0 x y).color)
    (c : PuyoColor) (p : Position) : allowedCell b c p = allowedCell b0 c p := by
  unfold allowedCell
  rw [isOutOfBounds_congr b0 b hlen, isEmptyAt_congr b0 b hcol, hcol]

theorem chainStep_congr (b0 b : Board) (hlen : b.grid.length = b0.grid.length)
    (hcol : ∀ x y : Int, (getPuyoAt b x y).color = (getPuyoAt b0 x y).color)
    (c : PuyoColor) (p q : Position) : chainStep b c p q ↔ chainStep b0 c p q := by
  unfold chainStep
  rw [allowedCell_congr b0 b hlen hcol]

theorem chainReach_congr (b0 b : Board) (hlen : b.grid.length = b0.grid.length)
    (hcol : ∀ x y : Int, (getPuyoAt b x y).color = (getPuyoAt b0 x y).color)
    (c : PuyoColor) (p q : Position) : chainReach b c p q ↔ chainReach b0 c p q := by
  constructor
  · exact Relation.ReflTransGen.mono
      (fun a a' h => (chainStep_congr b0 b hlen hcol c a a').mp h)
  · exact Relation.ReflTransGen.mono
      (fun a a' h => (chainStep_congr b0 b hlen hcol c a a').mpr h)

theorem comp_disjoint_visited (b0 : Board) (st : ChainScan) (hinv : ScanInv b0 st)
    (s : Position) (hs : allowedCell b0 ((getPuyoAt b0 s.x s.y).color) s = true)
    (hnv : s ∉ st.visited) :
    ∀ q : Position, chainReach b0 ((getPuyoAt b0 s.x s.y).color) s q →
      q ∉ st.visited := by
  intro q hq hqv
  have hqall : allowedCell b0 ((getPuyoAt b0 s.x s.y).color) q = true :=
    chainReach_allowed b0 _ s q hq hs
  have hback : chainReach b0 ((getPuyoAt b0 s.x s.y).color) q s :=
    chainReach_symm b0 _ s q hs hq
  have hall_mem : ∀ u : Position,
      chainReach b0 ((getPuyoAt b0 s.x s.y).color) q u → u ∈ st.visited := by
    intro u hu
    induction hu with
    | refl => exact hqv
    | @tail m w hm hstep ih =>
      have hmall : allowedCell b0 ((getPuyoAt b0 s.x s.y).color) m = true :=
        chainReach_allowed b0 _ q m hm hqall
      have hmcol : (getPuyoAt b0 m.x m.y).color = (getPuyoAt b0 s.x s.y).color :=
        ((allowedCell_iff b0 _ m).mp hmall).2.2.1
      apply hinv.vClosed m ih w
      rw [hmcol]
      exact hstep
  exact hnv (hall_mem s hback)

theorem markGroup_cons (b : Board) (p0 : Position) (rest : List Position) :
    markGroup b (p0 :: rest) =
      markGroup
        (match setPuyoAt b p0.x p0.y (markPuyoForDeletion (getPuyoAt b p0.x p0.y)) with
          | Except.ok nb => nb
          | Except.error _ => b) rest := rfl

theorem markGroup_get (g : List Position) :
    ∀ b : Board, BoardWF b →
      BoardWF (markGroup b g) ∧
      (markGroup b g).grid.length = b.grid.length ∧
      ∀ x y : Int, getPuyoAt (markGroup b g) x y =
        if Position.mk x y ∈ g ∧ isOutOfBounds b x y = false then
          markPuyoForDeletion (getPuyoAt b x y)
        else getPuyoAt b x y := by
  induction g with
  | nil =>
    intro b hwf
    refine ⟨hwf, rfl, ?_⟩
    intro x y
    rw [if_neg]
    · rfl
    · rintro ⟨hm, _⟩
      exact List.not_mem_nil _ hm
  | cons p0 rest ih =>
    intro b hwf
    by_cases hoob : isOutOfBounds b p0.x p0.y = true
    · have hstep :
          (match setPuyoAt b p0.x p0.y (markPuyoForDeletion (getPuyoAt b p0.x p0.y)) with
            | Except.ok nb => nb
            | Except.error _ => b) = b := by
        unfold setPuyoAt
        rw [if_pos hoob]
      rw [markGroup_cons, hstep]
      obtain ⟨ihwf, ihlen, ihget⟩ := ih b hwf
      refine ⟨ihwf, ihlen, ?_⟩
      intro x y
      rw [ihget x y]
      by_cases hxy : Position.mk x y ∈ rest ∧ isOutOfBounds b x y = false
      · rw [if_pos hxy, if_pos ⟨List.mem_cons_of_mem _ hxy.1, hxy.2⟩]
      · have hnc : ¬(Position.mk x y ∈ p0 :: rest ∧ isOutOfBounds b x y = false) := by
          rintro ⟨hm, hob⟩
          rcases List.mem_cons.mp hm with he | hr
          · rw [← he] at hoob
            have h2 : isOutOfBounds b x y = true := by simpa using hoob
            rw [h2] at hob
            exact Bool.true_eq_false.mp hob
          · exact hxy ⟨hr, hob⟩
        rw [if_neg hxy, if_neg hnc]
    · have hoob' : isOutOfBounds b p0.x p0.y = false := Bool.eq_false_iff.mpr hoob
      set b1 : Board := ⟨b.grid.set p0.y.toNat
        ((b.grid.getD p0.y.toNat []).set p0.x.toNat
          (markPuyoForDeletion (getPuyoAt b p0.x p0.y)))⟩ with hb1
      have hstep :
          (match setPuyoAt b p0.x p0.y (markPuyoForDeletion (getPuyoAt b p0.x p0.y)) with
            | Except.ok nb => nb
            | Except.error _ => b) = b1 := by
        rw [setPuyoAt_inBounds b p0.x p0.y _ hoob']
      have hwf1 : BoardWF b1 := boardWF_set b p0.x p0.y _ hwf
      have hlen1 : b1.grid.length = b.grid.length := grid_length_set b p0.x p0.y _
      have hget1same : getPuyoAt b1 p0.x p0.y = markPuyoForDeletion (getPuyoAt b p0.x p0.y) :=
        getPuyoAt_set_same b p0.x p0.y _ hwf hoob'
      have hget1other : ∀ x y : Int, ¬(x = p0.x ∧ y = p0.y) →
          getPuyoAt b1 x y = getPuyoAt b x y :=
        fun x y hne => getPuyoAt_set_other b p0.x p0.y x y _ hwf hoob' hne
      rw [markGroup_cons, hstep]
      obtain ⟨ihwf, ihlen, ihget⟩ := ih b1 hwf1
      refine ⟨ihwf, by rw [ihlen, hlen1], ?_⟩
      intro x y
      rw [ihget x y]
      have hoeq : isOutOfBounds b1 x y = isOutOfBounds b x y :=
        isOutOfBounds_congr b b1 hlen1 x y
      by_cases hmem : Position.mk x y ∈ rest ∧ isOutOfBounds b1 x y = false
      · rw [if_pos hmem]
        have hobf : isOutOfBounds b x y = false := by rw [← hoeq]; exact hmem.2
        rw [if_pos ⟨List.mem_cons_of_mem _ hmem.1, hobf⟩]
        by_cases hp : x = p0.x ∧ y = p0.y
        · obtain ⟨hpx, hpy⟩ := hp
          subst hpx
          subst hpy
          rw [hget1same]
          rfl
        · rw [hget1other x y hp]
      · rw [if_neg hmem]
        by_cases hp : x = p0.x ∧ y = p0.y
        · obtain ⟨hpx, hpy⟩ := hp
          subst hpx
          subst hpy
          rw [hget1same, if_pos ⟨List.mem_cons_self _ _, hoob'⟩]
        · have hnc : ¬(Position.mk x y ∈ p0 :: rest ∧ isOutOfBounds b x y = false) := by
            rintro ⟨hm, hob⟩
            rcases List.mem_cons.mp hm with he | hr
            · exact hp ⟨congrArg Position.x he, congrArg Position.y he⟩
            · exact hmem ⟨hr, by rw [hoeq]; exact hob⟩
          rw [hget1other x y hp, if_neg hnc]

theorem chainScanCell_inv (b0 : Board) (st : ChainScan) (x y : Int)
    (hx0 : 0 ≤ x) (hx6 : x < 6) (hy2 : 2 ≤ y) (hyl : y < (b0.grid.length : Int))
    (hinv : ScanInv b0 st) :
    ScanInv b0 (chainScanCell st x y) ∧
    (∀ p ∈ st.visited, p ∈ (chainScanCell st x y).visited) ∧
    (isEmptyAt b0 x y = false → Position.mk x y ∈ (chainScanCell st x y).visited) := by
  unfold chainScanCell
  by_cases hg : (st.visited.contains ⟨x, y⟩ || isEmptyAt st.board x y) = true
  · rw [if_pos hg]
    refine ⟨hinv, fun p hp => hp, ?_⟩
    intro hne
    have hse : isEmptyAt st.board x y = false := by
      rw [isEmptyAt_congr b0 st.board hinv.colors]
      exact hne
    rw [hse] at hg
    simp only [Bool.or_false] at hg
    exact (contains_iff_pos _ _).mp hg
  · have hg' : (st.visited.contains ⟨x, y⟩ || isEmptyAt st.board x y) = false :=
      Bool.eq_false_iff.mpr hg
    obtain ⟨hgx, hge⟩ := Bool.or_eq_false_iff.mp hg'
    have hsnv : Position.mk x y ∉ st.visited := fun hm => by
      rw [(contains_iff_pos _ _).mpr hm] at hgx
      exact Bool.true_eq_false.mp hgx
    rw [if_neg hg]
    dsimp only
    set c : PuyoColor := (getPuyoAt st.board x y).color with hc
    set r := findConnectedPuyos (st.board.grid.length * BOARD_WIDTH.toNat + 1)
      st.board x y c st.visited [] with hrdef
    have hcb0 : c = (getPuyoAt b0 x y).color := by
      rw [hc]
      exact hinv.colors x y
    have hoobst : isOutOfBounds st.board x y = false := by
      rw [isOutOfBounds_congr b0 st.board hinv.len, isOutOfBounds_eq_decide]
      simp only [decide_eq_false_iff_not, not_or, not_lt, not_le]
      omega
    have hghost : isGhostRow y = false := by
      unfold isGhostRow GHOST_ROW
      rw [beq_eq_false_iff_ne]
      omega
    have hcrane : isCraneRow y = false := by
      unfold isCraneRow CRANE_ROW
      rw [beq_eq_false_iff_ne]
      omega
    have hallst : allowedCell st.board c ⟨x, y⟩ = true := by
      rw [allowedCell_iff]
      exact ⟨hoobst, hge, by rw [hc], hghost, hcrane⟩
    have hallb0 : allowedCell b0 c ⟨x, y⟩ = true := by
      rw [← allowedCell_congr b0 st.board hinv.len hinv.colors]
      exact hallst
    have hfuel : freeCount st.board c st.visited <
        st.board.grid.length * BOARD_WIDTH.toNat + 1 :=
      Nat.lt_succ_of_le (freeCount_le st.board c st.visited)
    obtain ⟨L, e1, e2, h3, h4, h5⟩ :=
      dfs_spec st.board c (st.board.grid.length * BOARD_WIDTH.toNat + 1) x y st.visited []
    rw [← hrdef] at e1 e2
    have e2' : r.2 = L.reverse := by
      rw [e2]
      simp
    obtain ⟨hcompA, hcompB⟩ :=
      dfs_complete st.board c (st.board.grid.length * BOARD_WIDTH.toNat + 1) x y
        st.visited [] hfuel
    rw [← hrdef] at hcompA hcompB
    have hstepc := chainStep_congr b0 st.board hinv.len hinv.colors c
    have hreachc := chainReach_congr b0 st.board hinv.len hinv.colors c
    have hLall : ∀ p ∈ L, allowedCell b0 c p = true := fun p hp => by
      rw [← allowedCell_congr b0 st.board hinv.len hinv.colors]
      exact (h3 p hp).1
    have hLreach : ∀ p ∈ L, chainReach b0 c ⟨x, y⟩ p := fun p hp =>
      (hreachc _ p).mp (h3 p hp).2.2
    have hdisj : ∀ q : Position, chainReach b0 c ⟨x, y⟩ q → q ∉ st.visited := by
      intro q hq
      apply comp_disjoint_visited b0 st hinv ⟨x, y⟩ ?_ hsnv q ?_
      · dsimp only
        rw [← hcb0]
        exact hallb0
      · dsimp only
        rw [← hcb0]
        exact hq
    have hLcomp : ∀ q : Position, q ∈ L ↔ chainReach b0 c ⟨x, y⟩ q := by
      intro q
      constructor
      · exact hLreach q
      · intro hq
        have hqst : chainReach st.board c ⟨x, y⟩ q := (hreachc _ q).mpr hq
        have hqnv : q ∉ st.visited := hdisj q hq
        have hq1 : q ∈ r.1 := by
          clear hq hqnv
          induction hqst with
          | refl => exact hcompA hallst
          | @tail m w hm hstep ih2 =>
            have hmb0 : chainReach b0 c ⟨x, y⟩ m := (hreachc _ m).mp hm
            exact hcompB m ih2 (hdisj m hmb0) w hstep
        rw [e1] at hq1
        rcases List.mem_append.mp hq1 with h | h
        · exact h
        · exact absurd h hqnv
    have hcompset : component b0 ⟨x, y⟩ = {q : Position | q ∈ L} := by
      unfold component
      ext q
      simp only [Set.mem_setOf_eq]
      rw [← hcb0]
      exact (hLcomp q).symm
    have hncard : (component b0 ⟨x, y⟩).ncard = L.length := by
      rw [hcompset, ← List.coe_toFinset, Set.ncard_coe_Finset]
      exact List.toFinset_card_of_nodup h4
    have hvsub : ∀ p : Position, p ∈ st.visited → p ∈ r.1 := by
      rw [e1]
      intro p hp
      exact List.mem_append_right _ hp
    have hLsub : ∀ p : Position, p ∈ L → p ∈ r.1 := by
      rw [e1]
      intro p hp
      exact List.mem_append_left _ hp
    have hmemr1 : ∀ p : Position, p ∈ r.1 ↔ (p ∈ L ∨ p ∈ st.visited) := by
      rw [e1]
      intro p
      exact List.mem_append
    have hLcol : ∀ p ∈ L, (getPuyoAt b0 p.x p.y).color = c := fun p hp =>
      ((allowedCell_iff b0 c p).mp (hLall p hp)).2.2.1
    have hvAllowed' : ∀ p ∈ r.1, allowedCell b0 ((getPuyoAt b0 p.x p.y).color) p = true := by
      intro p hp
      rcases (hmemr1 p).mp hp with h | h
      · rw [hLcol p h]
        exact hLall p h
      · exact hinv.vAllowed p h
    have hvClosed' : ∀ p ∈ r.1, ∀ q : Position,
        chainStep b0 ((getPuyoAt b0 p.x p.y).color) p q → q ∈ r.1 := by
      intro p hp q hstep
      rcases (hmemr1 p).mp hp with h | h
      · rw [hLcol p h] at hstep
        exact hcompB p (hLsub p h) (fun hv => (h3 p h).2.1 hv) q ((hstepc p q).mpr hstep)
      · exact hvsub q (hinv.vClosed p h q hstep)
    have hvNodup' : r.1.Nodup := by
      rw [e1]
      exact List.Nodup.append h4 hinv.vNodup (fun a ha hb => (h3 a ha).2.1 hb)
    have hcompP : ∀ p ∈ L, (component b0 p).ncard = L.length := by
      intro p hp
      have hs' : allowedCell b0
          ((getPuyoAt b0 (⟨x, y⟩ : Position).x (⟨x, y⟩ : Position).y).color) ⟨x, y⟩ = true := by
        dsimp only
        rw [← hcb0]
        exact hallb0
      have hp' : chainReach b0
          ((getPuyoAt b0 (⟨x, y⟩ : Position).x (⟨x, y⟩ : Position).y).color) ⟨x, y⟩ p := by
        dsimp only
        rw [← hcb0]
        exact hLreach p hp
      rw [component_eq_of_mem b0 ⟨x, y⟩ p hs' hp']
      exact hncard
    by_cases hlen4 : 4 ≤ r.2.length
    · rw [if_pos hlen4]
      have hlenL : 4 ≤ L.length := by
        rw [e2', List.length_reverse] at hlen4
        exact hlen4
      obtain ⟨hmwf, hmlen, hmget⟩ := markGroup_get r.2 st.board hinv.wf
      refine ⟨⟨hmwf, by rw [hmlen]; exact hinv.len, ?_, hvAllowed', hvClosed', hvNodup', ?_⟩,
        fun p hp => hvsub p hp, fun _ => hcompA hallst⟩
      · intro x' y'
        rw [hmget x' y']
        by_cases hcond : Position.mk x' y' ∈ r.2 ∧ isOutOfBounds st.board x' y' = false
        · rw [if_pos hcond]
          exact hinv.colors x' y'
        · rw [if_neg hcond]
          exact hinv.colors x' y'
      · intro p
        rw [hmget p.x p.y]
        by_cases hpL : p ∈ L
        · have hpr2 : p ∈ r.2 := by
            rw [e2', List.mem_reverse]
            exact hpL
          have hpoob : isOutOfBounds st.board p.x p.y = false :=
            ((allowedCell_iff st.board c p).mp (h3 p hpL).1).1
          rw [if_pos ⟨hpr2, hpoob⟩]
          refine ⟨fun _ => ⟨hLsub p hpL, ?_⟩, fun _ => rfl⟩
          rw [hcompP p hpL]
          exact hlenL
        · have hcond : ¬(Position.mk p.x p.y ∈ r.2 ∧
              isOutOfBounds st.board p.x p.y = false) := by
            rintro ⟨hm, _⟩
            rw [e2', List.mem_reverse] at hm
            exact hpL hm
          rw [if_neg hcond, hinv.marked p]
          constructor
          · rintro ⟨hv, hn⟩
            exact ⟨hvsub p hv, hn⟩
          · rintro ⟨hr1, hn⟩
            rcases (hmemr1 p).mp hr1 with h | h
            · exact absurd h hpL
            · exact ⟨h, hn⟩
    · rw [if_neg hlen4]
      have hlenL : L.length < 4 := by
        rw [e2', List.length_reverse] at hlen4
        omega
      refine ⟨⟨hinv.wf, hinv.len, hinv.colors, hvAllowed', hvClosed', hvNodup', ?_⟩,
        fun p hp => hvsub p hp, fun _ => hcompA hallst⟩
      intro p
      have hiff := hinv.marked p
      constructor
      · intro hmk
        obtain ⟨hv, hn⟩ := hiff.mp hmk
        exact ⟨hvsub p hv, hn⟩
      · rintro ⟨hr1, hn⟩
        rcases (hmemr1 p).mp hr1 with h | h
        · rw [hcompP p h] at hn
          exact absurd hn (by omega)
        · exact hiff.mpr ⟨h, hn⟩

theorem chainScanRow_inv (b0 : Board) (y : Int) (hy2 : 2 ≤ y)
    (hyl : y < (b0.grid.length : Int)) :
    ∀ (xs : List Int), (∀ x ∈ xs, 0 ≤ x ∧ x < 6) →
      ∀ st : ChainScan, ScanInv b0 st →
        ScanInv b0 (xs.foldl (fun st x => chainScanCell st x y) st) ∧
        (∀ p ∈ st.visited, p ∈ (xs.foldl (fun st x => chainScanCell st x y) st).visited) ∧
        (∀ x ∈ xs, isEmptyAt b0 x y = false →
          Position.mk x y ∈ (xs.foldl (fun st x => chainScanCell st x y) st).visited) := by
  intro xs
  induction xs with
  | nil =>
    intro hb st hinv
    exact ⟨hinv, fun p hp => hp, by simp⟩
  | cons x0 rest ih =>
    intro hb st hinv
    rw [List.foldl_cons]
    have hx0 := hb x0 (List.mem_cons_self _ _)
    have hcell := chainScanCell_inv b0 st x0 y hx0.1 hx0.2 hy2 hyl hinv
    have hrest := ih (fun z hz => hb z (List.mem_cons_of_mem _ hz))
      (chainScanCell st x0 y) hcell.1
    refine ⟨hrest.1, ?_, ?_⟩
    · intro p hp
      exact hrest.2.1 p (hcell.2.1 p hp)
    · intro z hz hne
      rcases List.mem_cons.mp hz with he | hr
      · subst he
        exact hrest.2.1 _ (hcell.2.2 hne)
      · exact hrest.2.2 z hr hne

theorem chainScan_inv (b0 : Board) :
    ∀ (ys : List Int), (∀ y ∈ ys, 2 ≤ y ∧ y < (b0.grid.length : Int)) →
      ∀ st : ChainScan, ScanInv b0 st →
        ScanInv b0 (ys.foldl
          (fun st y => boardXs.foldl (fun st x => chainScanCell st x y) st) st) ∧
        (∀ p ∈ st.visited, p ∈ (ys.foldl
          (fun st y => boardXs.foldl (fun st x => chainScanCell st x y) st) st).visited) ∧
        (∀ y ∈ ys, ∀ x : Int, 0 ≤ x → x < 6 → isEmptyAt b0 x y = false →
          Position.mk x y ∈ (ys.foldl
            (fun st y => boardXs.foldl (fun st x => chainScanCell st x y) st) st).visited) := by
  intro ys
  induction ys with
  | nil =>
    intro hb st hinv
    exact ⟨hinv, fun p hp => hp, by simp⟩
  | cons y0 rest ih =>
    intro hb st hinv
    rw [List.foldl_cons]
    have hy0 := hb y0 (List.mem_cons_self _ _)
    have hrow := chainScanRow_inv b0 y0 hy0.1 hy0.2 boardXs
      (fun x hx => (mem_boardXs x).mp hx) st hinv
    have hrest := ih (fun z hz => hb z (List.mem_cons_of_mem _ hz)) _ hrow.1
    refine ⟨hrest.1, ?_, ?_⟩
    · intro p hp
      exact hrest.2.1 p (hrow.2.1 p hp)
    · intro z hz xx hx0 hx6 hne
      rcases List.mem_cons.mp hz with he | hr
      · subst he
        exact hrest.2.1 _ (hrow.2.2 xx ((mem_boardXs xx).mpr ⟨hx0, hx6⟩) hne)
      · exact hrest.2.2 z hr xx hx0 hx6 hne

theorem mem_chainYs_wf (b : Board) (hwf : BoardWF b) (y : Int) :
    y ∈ chainYs b ↔ 2 ≤ y ∧ y < (b.grid.length : Int) := by
  unfold chainYs
  rw [hwf.1]
  simp only [List.mem_map, List.mem_range'_1]
  constructor
  · rintro ⟨n, ⟨h2, h14⟩, rfl⟩
    constructor <;> omega
  · intro ⟨h2, hl⟩
    exact ⟨y.toNat, ⟨by omega, by omega⟩, by omega⟩

theorem scanInv_init (b : Board) (hwf : BoardWF b)
    (hnorm : ∀ x y : Int, (getPuyoAt b x y).state = PuyoState.NORMAL) :
    ScanInv b ⟨[], b, false, [], 0, []⟩ := by
  refine ⟨hwf, rfl, fun x y => rfl, ?_, ?_, List.nodup_nil, ?_⟩
  · intro p hp
    exact absurd hp (List.not_mem_nil p)
  · intro p hp
    exact absurd hp (List.not_mem_nil p)
  · intro p
    constructor
    · intro hmk
      rw [hnorm p.x p.y] at hmk
      exact PuyoState.noConfusion hmk
    · rintro ⟨hv, _⟩
      exact absurd hv (List.not_mem_nil p)

/-- C3: for a well-formed board whose Puyos are all in the `NORMAL` state,
`checkAndMarkChainsForDeletion` marks a cell for deletion exactly when the
cell is an admissible chain member (non-empty, on the board, outside the
crane and ghost rows) whose 4-directionally connected same-colored group
within the normal field has at least 4 members; consequently a group of
exactly 4 normal-field cells is marked, a group of 3 is not, and cells of
the crane row (`y = 0`) or ghost row (`y = 1`) are never marked, never count
as members, and never carry a connection into a group. -/
theorem C3_chain_detection (b : Board) (n : Nat) (hwf : BoardWF b)
    (hnorm : ∀ x y : Int, (getPuyoAt b x y).state = PuyoState.NORMAL) :
    (∀ x y : Int,
      (getPuyoAt (checkAndMarkChainsForDeletion b n).1 x y).state =
          PuyoState.MARKED_FOR_DELETION ↔
        (allowedCell b ((getPuyoAt b x y).color) ⟨x, y⟩ = true ∧
          4 ≤ (component b ⟨x, y⟩).ncard)) ∧
    (∀ x y : Int, isCraneRow y = true ∨ isGhostRow y = true →
      (getPuyoAt (checkAndMarkChainsForDeletion b n).1 x y).state ≠
        PuyoState.MARKED_FOR_DELETION) := by
  have hscan := chainScan_inv b (chainYs b)
    (fun y hy => (mem_chainYs_wf b hwf y).mp hy)
    ⟨[], b, false, [], 0, []⟩ (scanInv_init b hwf hnorm)
  have hb : (checkAndMarkChainsForDeletion b n).1 =
      ((chainYs b).foldl
        (fun st y => boardXs.foldl (fun st x => chainScanCell st x y) st)
        ⟨[], b, false, [], 0, []⟩).board := rfl
  rw [hb]
  obtain ⟨hfin, hmono, hcover⟩ := hscan
  constructor
  · intro x y
    have hiff := hfin.marked ⟨x, y⟩
    constructor
    · intro hmk
      obtain ⟨hv, hn⟩ := hiff.mp hmk
      exact ⟨hfin.vAllowed _ hv, hn⟩
    · rintro ⟨hall, hn⟩
      obtain ⟨hoob, hne, _, hgh, hcr⟩ := (allowedCell_iff b _ ⟨x, y⟩).mp hall
      obtain ⟨h0x, h6x, h0y, hly⟩ := (isOutOfBounds_false_iff b x y).mp hoob
      have hgh' : (y == GHOST_ROW) = false := hgh
      have hcr' : (y == CRANE_ROW) = false := hcr
      rw [beq_eq_false_iff_ne] at hgh' hcr'
      have hy2 : 2 ≤ y := by
        unfold GHOST_ROW at hgh'
        unfold CRANE_ROW at hcr'
        omega
      have hyin : y ∈ chainYs b := (mem_chainYs_wf b hwf y).mpr ⟨hy2, hly⟩
      exact hiff.mpr ⟨hcover y hyin x h0x h6x hne, hn⟩
  · intro x y hcg hmk
    have hiff := hfin.marked ⟨x, y⟩
    obtain ⟨hv, _⟩ := hiff.mp hmk
    have hall := hfin.vAllowed _ hv
    obtain ⟨_, _, _, hgh, hcr⟩ := (allowedCell_iff b _ ⟨x, y⟩).mp hall
    have hgh' : isGhostRow y = false := hgh
    have hcr' : isCraneRow y = false := hcr
    rcases hcg with h | h
    · rw [h] at hcr'
      exact Bool.true_eq_false.mp hcr'
    · rw [h] at hgh'
      exact Bool.true_eq_false.mp hgh'

/-- C3 witness: the chain-marking characterization on the empty board. -/
theorem C3_witness :
    (∀ x y : Int,
      (getPuyoAt (checkAndMarkChainsForDeletion createBoard 0).1 x y).state =
          PuyoState.MARKED_FOR_DELETION ↔
        (allowedCell createBoard ((getPuyoAt createBoard x y).color) ⟨x, y⟩ = true ∧
          4 ≤ (component createBoard ⟨x, y⟩).ncard)) ∧
    (∀ x y : Int, isCraneRow y = true ∨ isGhostRow y = true →
      (getPuyoAt (checkAndMarkChainsForDeletion createBoard 0).1 x y).state ≠
        PuyoState.MARKED_FOR_DELETION) :=
  C3_chain_detection createBoard 0 boardWF_createBoard
    (fun x y => by rw [getPuyoAt_createBoard]; rfl)
